import Mathlib

/-!
# D2D tabu search: solutions, problem context and numeric utilities

A shallow embedding of `solutions.hpp`, `problem.hpp` and `utils.hpp`.
The C++ `double` is read in exact arithmetic as `ℚ`; `std::size_t` values are `Nat`.
-/

set_option autoImplicit false

namespace d2d

/-! ## Numeric utilities -/

/-- The exceptions `Problem::get_instance` can raise: the `std::out_of_range` of
`utils::sqrt`, the `std::runtime_error` for an unknown drone energy model, and the
`std::length_error` of a `std::vector` constructor asked for more than `max_size()`
elements. -/
inductive ProblemError where
  | out_of_range (value : ℚ)
  | unknown_drone_energy_model (drone_class : String)
  | length_error

namespace utils

/-- Source: `utils::pow2`. -/
def pow2 (value : ℚ) : ℚ := value * value

/-- The value `1.0e-7` given to `accuracy` for a floating-point type. -/
def accuracy : ℚ := 1 / 10000000

/-- The `while` loop of `utils::sqrt` on the variables `low` and `high`, with `mid` written
out as `(low + high) / 2`; it returns the final `high`. Every turn halves `high - low`,
which is the reason the loop ends. -/
def sqrt_loop (value low high : ℚ) : ℚ :=
  if high - low > accuracy then
    if (low + high) / 2 * ((low + high) / 2) < value then
      sqrt_loop value ((low + high) / 2) high
    else
      sqrt_loop value low ((low + high) / 2)
  else
    high
termination_by Nat.ceil ((high - low) / accuracy)
decreasing_by
  all_goals
    have key : ∀ t : ℚ, 1 < t → Nat.ceil (t / 2) < Nat.ceil t := by
      intro t h1
      rw [Nat.lt_ceil]
      by_cases h2 : t ≤ 2
      · have h3 : Nat.ceil (t / 2) ≤ 1 := by
          rw [Nat.ceil_le]
          push_cast
          linarith
        have h4 : ((Nat.ceil (t / 2) : ℕ) : ℚ) ≤ 1 := by exact_mod_cast h3
        linarith
      · have h3 : ((Nat.ceil (t / 2) : ℕ) : ℚ) < t / 2 + 1 :=
          Nat.ceil_lt_add_one (by linarith)
        linarith
    have hacc : (0 : ℚ) < accuracy := by norm_num [accuracy]
    have hw : accuracy < high - low := by assumption
    have h1 : 1 < (high - low) / accuracy := by rwa [lt_div_iff₀ hacc, one_mul]
    have e1 : (high - (low + high) / 2) / accuracy = (high - low) / accuracy / 2 := by ring
    have e2 : ((low + high) / 2 - low) / accuracy = (high - low) / accuracy / 2 := by ring
    first
      | rw [e1]; exact key _ h1
      | rw [e2]; exact key _ h1

/-- Source: `utils::sqrt` at `T = double`. -/
def sqrt (value : ℚ) : Except ProblemError ℚ :=
  if value < 0 then
    throw (ProblemError.out_of_range value)
  else if value = 0 then
    pure 0
  else
    pure (sqrt_loop value 0 (max 1 value))

/-- Source: `utils::distance`. -/
def distance (dx dy : ℚ) : Except ProblemError ℚ :=
  sqrt (pow2 dx + pow2 dy)

end utils

/-! ## Customers and configurations -/

/-- The class `Customer`. -/
structure Customer where
  x : ℚ
  y : ℚ
  demand : ℚ
  dronable : Bool
  truck_service_time : ℚ
  drone_service_time : ℚ

/-- Source: `Customer::depot`. -/
def Customer.depot : Customer := ⟨0, 0, 0, true, 0, 0⟩

/-- Modelled from the spec: `config.hpp` is not among the sources. `StatsType` has the two
values `low` and `high`. -/
inductive StatsType where
  | low
  | high
deriving DecidableEq, Repr

/-- Modelled from the spec: `config.hpp` is not among the sources. The truck configuration,
with the constructor arguments in the order `get_instance` passes them. -/
structure TruckConfig where
  maximum_velocity : ℚ
  coefficients : List ℚ
  capacity : ℚ

/-- Modelled from the spec: `config.hpp` is not among the sources. The linear drone model. -/
structure DroneLinearConfig where
  capacity : ℚ
  speed_type : StatsType
  range_type : StatsType
  takeoff_speed : ℚ
  cruise_speed : ℚ
  landing_speed : ℚ
  altitude : ℚ
  battery : ℚ
  beta : ℚ
  gamma : ℚ

/-- Modelled from the spec: `config.hpp` is not among the sources. The nonlinear drone
model. -/
structure DroneNonlinearConfig where
  capacity : ℚ
  speed_type : StatsType
  range_type : StatsType
  takeoff_speed : ℚ
  cruise_speed : ℚ
  landing_speed : ℚ
  altitude : ℚ
  battery : ℚ
  k1 : ℚ
  k2 : ℚ
  c1 : ℚ
  c2 : ℚ
  c4 : ℚ
  c5 : ℚ

/-- Modelled from the spec: `config.hpp` is not among the sources. The endurance drone
model. -/
structure DroneEnduranceConfig where
  capacity : ℚ
  speed_type : StatsType
  range_type : StatsType
  fixed_time : ℚ
  fixed_distance : ℚ
  drone_speed : ℚ

/-- Modelled from the spec: `config.hpp` is not among the sources. The object behind a
`_BaseDroneConfig *` is one of the three drone models (a tagged variant, one-of). -/
inductive _BaseDroneConfig where
  | linear (c : DroneLinearConfig)
  | nonlinear (c : DroneNonlinearConfig)
  | endurance (c : DroneEnduranceConfig)

namespace _BaseDroneConfig

/-- Source: `dynamic_cast<DroneLinearConfig *>`: null unless the object is a linear model. -/
def cast_linear : _BaseDroneConfig → Option DroneLinearConfig
  | linear c => some c
  | _ => none

/-- Source: `dynamic_cast<DroneNonlinearConfig *>`: null unless the object is a nonlinear model. -/
def cast_nonlinear : _BaseDroneConfig → Option DroneNonlinearConfig
  | nonlinear c => some c
  | _ => none

/-- Source: `dynamic_cast<DroneEnduranceConfig *>`: null unless the object is an endurance model. -/
def cast_endurance : _BaseDroneConfig → Option DroneEnduranceConfig
  | endurance c => some c
  | _ => none

end _BaseDroneConfig

/-! ## Problem -/

/-- The class `Problem`; a pointer that may be null is an `Option`. -/
structure Problem where
  iterations : Nat
  tabu_size : Nat
  verbose : Bool
  trucks_count : Nat
  drones_count : Nat
  customers : List Customer
  distances : List (List ℚ)
  maximum_waiting_time : ℚ := 3600
  truck : TruckConfig
  drone : _BaseDroneConfig
  linear : Option DroneLinearConfig
  nonlinear : Option DroneNonlinearConfig
  endurance : Option DroneEnduranceConfig

/-- The values the extractions `std::cin >> ...` of `Problem::get_instance` deliver, in the
order they are read. A vector read in a loop is a list, of which the loop uses the first
entries; `tail` holds the values read after `_range_type`, whose number depends on the drone
class. -/
structure Input where
  customers_count : Nat
  trucks_count : Nat
  drones_count : Nat
  x : List ℚ
  y : List ℚ
  demands : List ℚ
  dronable : List Bool
  truck_service_time : List ℚ
  drone_service_time : List ℚ
  iterations : Nat
  tabu_size : Nat
  verbose : Bool
  truck_maximum_velocity : ℚ
  truck_capacity : ℚ
  truck_coefficients_count : Nat
  truck_coefficients : List ℚ
  drone_class : String
  capacity : ℚ
  _speed_type : String
  _range_type : String
  tail : List ℚ

/-- The entry `distances[i][j]`. -/
def entry (distances : List (List ℚ)) (i j : Nat) : ℚ :=
  (distances.getD i []).getD j 0

/-- The assignment `distances[i][j] = value`. -/
def set_entry (distances : List (List ℚ)) (i j : Nat) (value : ℚ) : List (List ℚ) :=
  distances.set i ((distances.getD i []).set j value)

namespace Problem

/-- The vector `customers` of `Problem::get_instance`: the depot, then one customer for each
`i < customers_count`. -/
def read_customers (cin : Input) : List Customer :=
  Customer.depot :: (List.range cin.customers_count).map (fun i =>
    { x := cin.x.getD i 0
      y := cin.y.getD i 0
      demand := cin.demands.getD i 0
      dronable := cin.dronable.getD i false
      truck_service_time := cin.truck_service_time.getD i 0
      drone_service_time := cin.drone_service_time.getD i 0 })

/-- The body of the inner loop over `j`: `distances[i][j] = distances[j][i] =
utils::distance(...)`, the assignment to `distances[j][i]` first. -/
def assign_distance (customers : List Customer) (i : Nat) (distances : List (List ℚ))
    (j : Nat) : Except ProblemError (List (List ℚ)) := do
  let value ← utils.distance
    ((customers.getD i Customer.depot).x - (customers.getD j Customer.depot).x)
    ((customers.getD i Customer.depot).y - (customers.getD j Customer.depot).y)
  pure (set_entry (set_entry distances j i value) i j value)

/-- The inner loop, over `j = i + 1, ..., customers.size() - 1`. -/
def distances_row (customers : List Customer) (distances : List (List ℚ)) (i : Nat) :
    Except ProblemError (List (List ℚ)) :=
  (List.range' (i + 1) (customers.length - (i + 1))).foldlM (assign_distance customers i)
    distances

/-- The distance matrix of `Problem::get_instance`: a square matrix of zeros, filled by the
two nested loops. -/
def calculate_distances (customers : List Customer) : Except ProblemError (List (List ℚ)) :=
  (List.range customers.length).foldlM (distances_row customers)
    (List.replicate customers.length (List.replicate customers.length 0))

/-- The branches on `drone_class` of `Problem::get_instance`, which read the tail of the
input and build the drone configuration. -/
def read_drone (cin : Input) (speed_type range_type : StatsType) :
    Except ProblemError _BaseDroneConfig :=
  if cin.drone_class = "DroneLinearConfig" then
    pure (_BaseDroneConfig.linear
      { capacity := cin.capacity, speed_type := speed_type, range_type := range_type
        takeoff_speed := cin.tail.getD 0 0, cruise_speed := cin.tail.getD 1 0
        landing_speed := cin.tail.getD 2 0, altitude := cin.tail.getD 3 0
        battery := cin.tail.getD 4 0, beta := cin.tail.getD 5 0, gamma := cin.tail.getD 6 0 })
  else if cin.drone_class = "DroneNonlinearConfig" then
    pure (_BaseDroneConfig.nonlinear
      { capacity := cin.capacity, speed_type := speed_type, range_type := range_type
        takeoff_speed := cin.tail.getD 0 0, cruise_speed := cin.tail.getD 1 0
        landing_speed := cin.tail.getD 2 0, altitude := cin.tail.getD 3 0
        battery := cin.tail.getD 4 0, k1 := cin.tail.getD 5 0, k2 := cin.tail.getD 6 0
        c1 := cin.tail.getD 7 0, c2 := cin.tail.getD 8 0, c4 := cin.tail.getD 9 0
        c5 := cin.tail.getD 10 0 })
  else if cin.drone_class = "DroneEnduranceConfig" then
    pure (_BaseDroneConfig.endurance
      { capacity := cin.capacity, speed_type := speed_type, range_type := range_type
        fixed_time := cin.tail.getD 0 0, fixed_distance := cin.tail.getD 1 0
        drone_speed := cin.tail.getD 2 0 })
  else
    throw (ProblemError.unknown_drone_energy_model cin.drone_class)

/-- The block of `Problem::get_instance` that runs while `_instance` is null, up to the
`new Problem(...)` whose result is stored in `_instance`, on an input for which the vectors
of the block can be constructed; `get_instance_bounded` adds the exception of the vector
constructors. -/
def build (cin : Input) : Except ProblemError Problem := do
  let customers := read_customers cin
  let distances ← calculate_distances customers
  let truck : TruckConfig :=
    { maximum_velocity := cin.truck_maximum_velocity
      coefficients :=
        (List.range cin.truck_coefficients_count).map (fun i => cin.truck_coefficients.getD i 0)
      capacity := cin.truck_capacity }
  let speed_type := if cin._speed_type = "low" then StatsType.low else StatsType.high
  let range_type := if cin._range_type = "low" then StatsType.low else StatsType.high
  let drone ← read_drone cin speed_type range_type
  pure
    { iterations := cin.iterations
      tabu_size := cin.tabu_size
      verbose := cin.verbose
      trucks_count := cin.trucks_count
      drones_count := cin.drones_count
      customers := customers
      distances := distances
      truck := truck
      drone := drone
      linear := drone.cast_linear
      nonlinear := drone.cast_nonlinear
      endurance := drone.cast_endurance }

/-- Source: `Problem::get_instance`, on an input for which the vectors of the block can be
constructed. The static `_instance` is passed in and its value after the call is returned
next to the result; an exception leaves it as it was. -/
def get_instance (_instance : Option Problem) (cin : Input) :
    Except ProblemError Problem × Option Problem :=
  match _instance with
  | none =>
    match build cin with
    | Except.ok problem => (Except.ok problem, some problem)
    | Except.error e => (Except.error e, none)
  | some problem => (Except.ok problem, some problem)

end Problem

/-- The value `utils::distance(dx, dy)` returns; 0 stands for a raised exception. -/
def distance_value (dx dy : ℚ) : ℚ :=
  match utils.distance dx dy with
  | Except.ok value => value
  | Except.error _ => 0

/-- The value `utils::distance` returns on the coordinate differences of the customers `i`
and `j`. -/
def customer_distance (customers : List Customer) (i j : Nat) : ℚ :=
  distance_value
    ((customers.getD i Customer.depot).x - (customers.getD j Customer.depot).x)
    ((customers.getD i Customer.depot).y - (customers.getD j Customer.depot).y)

/-- A matrix with `n` rows of `n` entries each. -/
def Square (n : Nat) (distances : List (List ℚ)) : Prop :=
  distances.length = n ∧ ∀ i, i < n → (distances.getD i []).length = n

/-- An input with the given customer coordinates and drone class, and fixed values
elsewhere. -/
def example_input (x y : List ℚ) (drone_class : String) : Input :=
  { customers_count := x.length, trucks_count := 1, drones_count := 1, x := x, y := y,
    demands := x.map (fun _ => 1), dronable := x.map (fun _ => true),
    truck_service_time := x.map (fun _ => 0), drone_service_time := x.map (fun _ => 0),
    iterations := 100, tabu_size := 5, verbose := false, truck_maximum_velocity := 1,
    truck_capacity := 10, truck_coefficients_count := 1, truck_coefficients := [1],
    drone_class := drone_class, capacity := 1, _speed_type := "low", _range_type := "high",
    tail := [1, 1, 1] }

/-! ## Routes -/

/-- Modelled from the spec: `routes.hpp` is not among the sources. A truck route exposes
`customers()`, `working_time()` and `capacity_violation()`; the record holds the values
those accessors return. -/
structure TruckRoute where
  customers : List Nat
  working_time : ℚ
  capacity_violation : ℚ

/-- Modelled from the spec: `routes.hpp` is not among the sources. A drone route exposes
`customers()`, `working_time()`, `capacity_violation()` and `energy_violation()`. -/
structure DroneRoute where
  customers : List Nat
  working_time : ℚ
  capacity_violation : ℚ
  energy_violation : ℚ

/-! ## Solution -/

/-- The class `Solution`: three aggregates and the two route matrices. -/
structure Solution where
  working_time : ℚ
  drone_energy_violation : ℚ
  capacity_violation : ℚ
  truck_routes : List (List TruckRoute)
  drone_routes : List (List DroneRoute)

namespace Solution

/-- Source: `Solution::_calculate_working_time`: the macro `CALCULATE_D2D_ROUTES` is expanded once
for the trucks and once for the drones, on the same running `result`. -/
def _calculate_working_time (truck_routes : List (List TruckRoute))
    (drone_routes : List (List DroneRoute)) : ℚ :=
  let result : ℚ := 0
  let result := truck_routes.foldl
    (fun result routes => max result (routes.foldl (fun time route => time + route.working_time) 0))
    result
  let result := drone_routes.foldl
    (fun result routes => max result (routes.foldl (fun time route => time + route.working_time) 0))
    result
  result

/-- Source: `Solution::_calculate_energy_violation`. -/
def _calculate_energy_violation (drone_routes : List (List DroneRoute)) : ℚ :=
  drone_routes.foldl
    (fun result routes => routes.foldl (fun result route => result + route.energy_violation) result)
    0

/-- Source: `Solution::_calculate_capacity_violation`. -/
def _calculate_capacity_violation (truck_routes : List (List TruckRoute))
    (drone_routes : List (List DroneRoute)) : ℚ :=
  let result : ℚ := 0
  let result := truck_routes.foldl
    (fun result routes => routes.foldl (fun result route => result + route.capacity_violation) result)
    result
  let result := drone_routes.foldl
    (fun result routes => routes.foldl (fun result route => result + route.capacity_violation) result)
    result
  result

/-- The constructor `Solution::Solution` without the `DEBUG` block. -/
def new (truck_routes : List (List TruckRoute)) (drone_routes : List (List DroneRoute)) :
    Solution :=
  { working_time := _calculate_working_time truck_routes drone_routes
    drone_energy_violation := _calculate_energy_violation drone_routes
    capacity_violation := _calculate_capacity_violation truck_routes drone_routes
    truck_routes := truck_routes
    drone_routes := drone_routes }

/-- Source: `Solution::cost`. -/
def cost (s : Solution) : ℚ := s.working_time

/-- Source: `Solution::initial`. The three seeds `initial_12(true)`, `initial_12(false)` and
`initial_3()` come from `initial.hpp`, which is not among the sources; they are taken as
arguments. -/
def initial (initial_12_true initial_12_false initial_3 : Solution) : Solution :=
  let result := initial_12_true
  let r := initial_12_false
  let result := if result.cost < r.cost then result else r
  let r := initial_3
  let result := if result.cost < r.cost then result else r
  result

/-- Source: `Solution::post_optimization`. -/
def post_optimization (solution : Solution) : Solution := solution

end Solution

/-! ## Tabu search -/

/-- The call `utils::random_element(neighborhoods)->move(current, aspiration_criteria)`.
The neighborhoods (`neighborhoods/*.hpp`) and the random source (`random.hpp`) are not among
the sources: the call is an arbitrary function of the state `σ` of the neighborhoods and of
the random source, of `current` and of the aspiration predicate; it returns the neighbor
(`none` for `nullptr`) and the next state. -/
abbrev Move (σ : Type) := σ → Solution → (Solution → Bool) → Option Solution × σ

/-- The variables of the loop of `Solution::tabu_search`, with the state of the
neighborhoods and of the random source. -/
structure TabuState (σ : Type) where
  current : Solution
  result : Solution
  env : σ

/-- The lambda `aspiration_criteria`, which captures `result` by reference. -/
def aspiration_criteria (result : Solution) (s : Solution) : Bool :=
  decide (s.cost < result.cost)

/-- One iteration of the loop of `Solution::tabu_search` (the progress bar, printed when
`verbose` is set, is left out: it writes to the console only). -/
def tabu_iteration {σ : Type} (move : Move σ) (st : TabuState σ) : TabuState σ :=
  match move st.env st.current (aspiration_criteria st.result) with
  | (some neighbor, env) =>
    { current := neighbor
      result := if neighbor.cost < st.result.cost then neighbor else st.result
      env := env }
  | (none, env) => { st with env := env }

/-- The state after the given number of iterations of the loop. -/
def tabu_loop {σ : Type} (move : Move σ) (iterations : Nat) (st : TabuState σ) : TabuState σ :=
  (tabu_iteration move)^[iterations] st

/-- The values `neighbor` takes during the given number of iterations, in order. -/
def tabu_neighbors {σ : Type} (move : Move σ) : Nat → TabuState σ → List (Option Solution)
  | 0, _ => []
  | n + 1, st =>
    (move st.env st.current (aspiration_criteria st.result)).1 ::
      tabu_neighbors move n (tabu_iteration move st)

namespace Solution

/-- Source: `Solution::tabu_search`, on the installed `problem`. -/
def tabu_search {σ : Type} (problem : Problem)
    (initial_12_true initial_12_false initial_3 : Solution) (move : Move σ) (env : σ) :
    Solution :=
  let current := initial initial_12_true initial_12_false initial_3
  let result := current
  post_optimization (tabu_loop move problem.iterations ⟨current, result, env⟩).result

end Solution

/-- The two `std::runtime_error`s the `DEBUG` block of the constructor throws, named after
their messages. -/
inductive InvariantError where
  | visited_more_than_once (customer : Nat)
  | missing (customer : Nat)
deriving DecidableEq, Repr

/-- The body of the innermost loop of the macro `CHECK_ROUTES`, on the vector `exists`. -/
def check_customer (ex : List Bool) (customer : Nat) : Except InvariantError (List Bool) :=
  if ex.getD customer false && customer != 0 then
    throw (InvariantError.visited_more_than_once customer)
  else
    pure (ex.set customer true)

/-- The macro `CHECK_ROUTES`, for a route type with the accessor `customers`. -/
def CHECK_ROUTES {R : Type} (customers : R → List Nat) (vehicle_routes : List (List R))
    (ex : List Bool) : Except InvariantError (List Bool) :=
  vehicle_routes.foldlM
    (fun ex routes => routes.foldlM (fun ex route => (customers route).foldlM check_customer ex) ex)
    ex

/-- The body of the final loop of the `DEBUG` block. -/
def check_present (ex : List Bool) (_ : Unit) (i : Nat) : Except InvariantError Unit :=
  if !ex.getD i false then throw (InvariantError.missing i) else pure ()

/-- The final loop of the `DEBUG` block, over `i = 0, ..., exists.size() - 1`. -/
def check_missing (ex : List Bool) : Except InvariantError Unit :=
  (List.range ex.length).foldlM (check_present ex) ()

namespace Solution

/-- The constructor `Solution::Solution` of a debug build, on the installed `problem`. -/
def new_debug (problem : Problem) (truck_routes : List (List TruckRoute))
    (drone_routes : List (List DroneRoute)) : Except InvariantError Solution := do
  let ex := List.replicate problem.customers.length false
  let ex ← CHECK_ROUTES TruckRoute.customers truck_routes ex
  let ex ← CHECK_ROUTES DroneRoute.customers drone_routes ex
  check_missing ex
  pure (new truck_routes drone_routes)

end Solution

/-- The customer indices of all routes of all vehicles of one kind, in the order
`CHECK_ROUTES` visits them. -/
def visited {R : Type} (customers : R → List Nat) (vehicle_routes : List (List R)) : List Nat :=
  (vehicle_routes.flatten.map customers).flatten

/-- The customer indices of all truck routes followed by those of all drone routes. -/
def all_visited (truck_routes : List (List TruckRoute)) (drone_routes : List (List DroneRoute)) :
    List Nat :=
  visited TruckRoute.customers truck_routes ++ visited DroneRoute.customers drone_routes

/-- A problem with the given customers (the depot first) and empty tables otherwise. -/
def example_problem (customers : List Customer) : Problem :=
  { iterations := 0, tabu_size := 0, verbose := false, trucks_count := 1, drones_count := 1,
    customers := customers, distances := [], truck := ⟨1, [], 1⟩,
    drone := _BaseDroneConfig.endurance ⟨1, StatsType.low, StatsType.low, 1, 1, 1⟩,
    linear := none, nonlinear := none,
    endurance := some ⟨1, StatsType.low, StatsType.low, 1, 1, 1⟩ }

/-- The solution invariant on customer visits: every non-depot customer index in [1, N-1]
appears exactly once across all routes of all vehicles. -/
def visits_each_once (problem : Problem) (s : Solution) : Prop :=
  ∀ i, 1 ≤ i → i < problem.customers.length →
    (all_visited s.truck_routes s.drone_routes).count i = 1

/-- A solution with one truck that serves customer 1 on a route of the given working time,
and one drone without a route. -/
def example_solution (working_time : ℚ) : Solution :=
  Solution.new [[⟨[0, 1, 0], working_time, 0⟩]] [[]]

/-- A move that returns the given neighbor whatever it receives. -/
def example_move (neighbor : Option Solution) : Move Unit :=
  fun _ _ _ => (neighbor, ())

/-- An instance with the depot, one customer at (3, 4), and 3 iterations. -/
def example_instance : Problem :=
  { example_problem [Customer.depot, ⟨3, 4, 1, true, 0, 0⟩] with iterations := 3 }

namespace _BaseDroneConfig

/-- Modelled from the spec: `config.hpp` is not among the sources. The member `speed_type`
that every drone configuration receives as its second constructor argument. -/
def speed_type : _BaseDroneConfig → StatsType
  | linear c => c.speed_type
  | nonlinear c => c.speed_type
  | endurance c => c.speed_type

/-- Modelled from the spec: `config.hpp` is not among the sources. The member `range_type`
that every drone configuration receives as its third constructor argument. -/
def range_type : _BaseDroneConfig → StatsType
  | linear c => c.range_type
  | nonlinear c => c.range_type
  | endurance c => c.range_type

end _BaseDroneConfig

namespace Problem

/-- The number of extractions `std::cin >> v` that a call of `Problem::get_instance`
executes: none when an instance is installed, and otherwise those of the block that builds
the instance (three counts, six vectors of `customers_count` values, the search and truck
parameters, the truck coefficients, the drone header and the tail of the drone class). -/
def extractions (_instance : Option Problem) (cin : Input) : Nat :=
  match _instance with
  | none =>
    3 + 6 * cin.customers_count + 3 + 2 + 1 + cin.truck_coefficients_count + 1 + 3 +
      (if cin.drone_class = "DroneLinearConfig" then 7
       else if cin.drone_class = "DroneNonlinearConfig" then 11
       else if cin.drone_class = "DroneEnduranceConfig" then 3
       else 0)
  | some _ => 0

/-- A sequence of calls of `Problem::get_instance`, one for each input of the list: the
results of the calls in order, and `_instance` after the last one. -/
def calls (_instance : Option Problem) :
    List Input → List (Except ProblemError Problem) × Option Problem
  | [] => ([], _instance)
  | cin :: rest =>
    ((get_instance _instance cin).1 :: (calls (get_instance _instance cin).2 rest).1,
      (calls (get_instance _instance cin).2 rest).2)

end Problem

/-- An input with one customer at (3, 4), an endurance drone, and the tokens `medium` and
`far` for the speed type and the range type. -/
def example_input_stats : Input :=
  { example_input [3] [4] "DroneEnduranceConfig" with
    _speed_type := "medium", _range_type := "far" }

/-- One turn of the `while` loop of `utils::sqrt` on the pair `(low, high)`: `mid` replaces
`low` when `mid * mid < value`, and `high` otherwise. -/
def sqrt_step (value : ℚ) (state : ℚ × ℚ) : ℚ × ℚ :=
  if (state.1 + state.2) / 2 * ((state.1 + state.2) / 2) < value then
    ((state.1 + state.2) / 2, state.2)
  else
    (state.1, (state.1 + state.2) / 2)

namespace Problem

/-- The constructions `std::vector<double> v(n)` of `Problem::get_instance`, in the order
of the source: the vectors of `customers_count` values read from the input, the rows of
`customers.size()` entries of the distance matrix, and the `truck_coefficients_count`
truck coefficients. The constructor throws `std::length_error` when `n` exceeds
`max_size()`, which depends on the platform and is a parameter. A `std::bad_alloc` of the
allocator below that size is not modelled, nor is a failure of the growing vectors
`dronable` and `customers`. -/
def construct_vectors (max_size : Nat) (cin : Input) : Except ProblemError Unit :=
  if max_size < cin.customers_count then
    throw ProblemError.length_error
  else if max_size < cin.customers_count + 1 then
    throw ProblemError.length_error
  else if max_size < cin.truck_coefficients_count then
    throw ProblemError.length_error
  else
    pure ()

/-- Source: `Problem::get_instance` with the `std::length_error` of its vector
constructors. All three constructions come before the `throw` on the drone class, and
nothing between them throws, so the block fails on the first of them that fails and
otherwise runs as `build`. -/
def get_instance_bounded (max_size : Nat) (_instance : Option Problem) (cin : Input) :
    Except ProblemError Problem × Option Problem :=
  match _instance with
  | none =>
    match construct_vectors max_size cin with
    | Except.error e => (Except.error e, none)
    | Except.ok _ =>
      match build cin with
      | Except.ok problem => (Except.ok problem, some problem)
      | Except.error e => (Except.error e, none)
  | some problem => (Except.ok problem, some problem)

end Problem

/-- An input with an endurance drone whose `customers_count` is 2 ^ 64 - 1, the largest
`std::size_t`, which the token `-1` is read as. -/
def example_input_oversized : Input :=
  { example_input [3] [4] "DroneEnduranceConfig" with customers_count := 18446744073709551615 }

/-- The per-vehicle totals of a pair of route matrices: for every truck, then every drone,
the sum of `working_time()` over the routes of that vehicle. -/
def vehicle_totals (truck_routes : List (List TruckRoute))
    (drone_routes : List (List DroneRoute)) : List ℚ :=
  truck_routes.map (fun routes => (routes.map (fun r => r.working_time)).sum) ++
    drone_routes.map (fun routes => (routes.map (fun r => r.working_time)).sum)

/-! ## Lemmas on folds -/

theorem foldl_add_eq_sum {α : Type} (f : α → ℚ) (l : List α) (a : ℚ) :
    l.foldl (fun time r => time + f r) a = a + (l.map f).sum := by
  induction l generalizing a with
  | nil => simp
  | cons x xs ih => simp [ih, add_assoc]

theorem foldl_max_ge_init (l : List ℚ) (a : ℚ) : a ≤ l.foldl max a := by
  induction l generalizing a with
  | nil => simp
  | cons x xs ih => exact le_trans (le_max_left a x) (ih (max a x))

theorem foldl_max_ge_mem (l : List ℚ) (a : ℚ) : ∀ x ∈ l, x ≤ l.foldl max a := by
  induction l generalizing a with
  | nil => simp
  | cons y ys ih =>
    intro x hx
    rcases List.mem_cons.mp hx with h | h
    · subst h
      exact le_trans (le_max_right a x) (foldl_max_ge_init ys (max a x))
    · exact ih (max a y) x h

theorem foldl_max_mem (l : List ℚ) (a : ℚ) : l.foldl max a = a ∨ l.foldl max a ∈ l := by
  induction l generalizing a with
  | nil => simp
  | cons y ys ih =>
    rcases ih (max a y) with h | h
    · rcases max_choice a y with h2 | h2
      · left
        rw [List.foldl_cons, h, h2]
      · right
        rw [List.foldl_cons, h, h2]
        exact List.mem_cons_self y ys
    · right; exact List.mem_cons_of_mem _ h

theorem calculate_working_time_eq (truck_routes : List (List TruckRoute))
    (drone_routes : List (List DroneRoute)) :
    Solution._calculate_working_time truck_routes drone_routes =
      (vehicle_totals truck_routes drone_routes).foldl max 0 := by
  simp only [Solution._calculate_working_time, vehicle_totals, List.foldl_append, List.foldl_map,
    foldl_add_eq_sum, zero_add]

theorem foldl_nested_add {α : Type} (f : α → ℚ) (vehicle_routes : List (List α)) (a : ℚ) :
    vehicle_routes.foldl
        (fun result routes => routes.foldl (fun result route => result + f route) result) a =
      a + (vehicle_routes.flatten.map f).sum := by
  induction vehicle_routes generalizing a with
  | nil => simp
  | cons routes rest ih =>
    rw [List.foldl_cons, ih, foldl_add_eq_sum, List.flatten_cons, List.map_append,
      List.sum_append, add_assoc]

theorem sum_map_nonneg {α : Type} (f : α → ℚ) (l : List α) (h : ∀ r ∈ l, 0 ≤ f r) :
    0 ≤ (l.map f).sum := by
  apply List.sum_nonneg
  intro x hx
  obtain ⟨r, hr, rfl⟩ := List.mem_map.mp hx
  exact h r hr

/-! ## Lemmas on the tabu loop -/

theorem tabu_iteration_result {σ : Type} (move : Move σ) (st : TabuState σ) :
    (tabu_iteration move st).result =
      match (move st.env st.current (aspiration_criteria st.result)).1 with
      | some neighbor => if neighbor.cost < st.result.cost then neighbor else st.result
      | none => st.result := by
  unfold tabu_iteration
  rcases h : move st.env st.current (aspiration_criteria st.result) with ⟨_ | nb, env⟩ <;> simp

theorem tabu_iteration_current {σ : Type} (move : Move σ) (st : TabuState σ) :
    (tabu_iteration move st).current =
      match (move st.env st.current (aspiration_criteria st.result)).1 with
      | some neighbor => neighbor
      | none => st.current := by
  unfold tabu_iteration
  rcases h : move st.env st.current (aspiration_criteria st.result) with ⟨_ | nb, env⟩ <;> simp

theorem tabu_iteration_cost_le {σ : Type} (move : Move σ) (st : TabuState σ) :
    (tabu_iteration move st).result.cost ≤ st.result.cost := by
  rw [tabu_iteration_result]
  rcases (move st.env st.current (aspiration_criteria st.result)).1 with _ | nb
  · exact le_refl _
  · by_cases h : nb.cost < st.result.cost
    · simp only [h, if_true]; exact le_of_lt h
    · simp only [h, if_false]; exact le_refl _

theorem tabu_loop_succ {σ : Type} (move : Move σ) (n : Nat) (st : TabuState σ) :
    tabu_loop move (n + 1) st = tabu_loop move n (tabu_iteration move st) := by
  simp only [tabu_loop, Function.iterate_succ_apply]

theorem tabu_loop_cost_le {σ : Type} (move : Move σ) (n : Nat) (st : TabuState σ) :
    (tabu_loop move n st).result.cost ≤ st.result.cost := by
  induction n generalizing st with
  | zero => exact le_refl _
  | succ n ih =>
    rw [tabu_loop_succ]
    exact le_trans (ih _) (tabu_iteration_cost_le move st)

theorem tabu_loop_result_mem {σ : Type} (move : Move σ) (n : Nat) (st : TabuState σ) :
    (tabu_loop move n st).result ∈ st.result :: (tabu_neighbors move n st).reduceOption := by
  induction n generalizing st with
  | zero => simp [tabu_loop, tabu_neighbors]
  | succ n ih =>
    have h := ih (tabu_iteration move st)
    rw [tabu_loop_succ]
    rw [tabu_iteration_result] at h
    simp only [tabu_neighbors]
    rcases hm : (move st.env st.current (aspiration_criteria st.result)).1 with _ | nb
    · rw [hm] at h
      simpa [List.reduceOption_cons_of_none] using h
    · rw [hm] at h
      rw [List.reduceOption_cons_of_some]
      by_cases hc : nb.cost < st.result.cost
      · simp only [hc, if_true] at h
        exact List.mem_cons_of_mem _ h
      · simp only [hc, if_false] at h
        rcases List.mem_cons.mp h with h1 | h1
        · rw [h1]; exact List.mem_cons_self _ _
        · exact List.mem_cons_of_mem _ (List.mem_cons_of_mem _ h1)

theorem tabu_loop_result_le {σ : Type} (move : Move σ) (n : Nat) (st : TabuState σ) :
    ∀ c ∈ st.result :: (tabu_neighbors move n st).reduceOption,
      (tabu_loop move n st).result.cost ≤ c.cost := by
  induction n generalizing st with
  | zero => simp [tabu_loop, tabu_neighbors]
  | succ n ih =>
    intro c hc
    have h := ih (tabu_iteration move st)
    have hle := tabu_loop_cost_le move n (tabu_iteration move st)
    rw [tabu_loop_succ]
    rw [tabu_iteration_result] at h hle
    simp only [tabu_neighbors] at hc
    rcases hm : (move st.env st.current (aspiration_criteria st.result)).1 with _ | nb
    · rw [hm] at h hc hle
      rw [List.reduceOption_cons_of_none] at hc
      exact h c hc
    · rw [hm] at h hc hle
      rw [List.reduceOption_cons_of_some] at hc
      by_cases hlt : nb.cost < st.result.cost
      · simp only [hlt, if_true] at h hle
        rcases List.mem_cons.mp hc with h1 | h1
        · rw [h1]; exact le_trans hle (le_of_lt hlt)
        · exact h c h1
      · simp only [hlt, if_false] at h hle
        rcases List.mem_cons.mp hc with h1 | h1
        · rw [h1]; exact hle
        · rcases List.mem_cons.mp h1 with h2 | h2
          · rw [h2]; exact le_trans hle (not_lt.mp hlt)
          · exact h c (List.mem_cons_of_mem _ h2)

theorem tabu_loop_current_mem {σ : Type} (move : Move σ) (n : Nat) (st : TabuState σ) :
    (tabu_loop move n st).current ∈ st.current :: (tabu_neighbors move n st).reduceOption := by
  induction n generalizing st with
  | zero => simp [tabu_loop, tabu_neighbors]
  | succ n ih =>
    have h := ih (tabu_iteration move st)
    rw [tabu_loop_succ]
    rw [tabu_iteration_current] at h
    simp only [tabu_neighbors]
    rcases hm : (move st.env st.current (aspiration_criteria st.result)).1 with _ | nb
    · rw [hm] at h
      rw [List.reduceOption_cons_of_none]
      exact h
    · rw [hm] at h
      rw [List.reduceOption_cons_of_some]
      exact List.mem_cons_of_mem _ h

theorem tabu_neighbors_mono {σ : Type} (move : Move σ) (n m : Nat) (hnm : n ≤ m)
    (st : TabuState σ) :
    ∀ x ∈ (tabu_neighbors move n st).reduceOption, x ∈ (tabu_neighbors move m st).reduceOption := by
  induction n generalizing m st with
  | zero => intro x hx; simp [tabu_neighbors] at hx
  | succ n ih =>
    obtain ⟨k, rfl⟩ : ∃ k, m = k + 1 := ⟨m - 1, by omega⟩
    intro x hx
    simp only [tabu_neighbors] at hx ⊢
    rcases hm : (move st.env st.current (aspiration_criteria st.result)).1 with _ | nb
    · rw [hm, List.reduceOption_cons_of_none] at hx
      rw [List.reduceOption_cons_of_none]
      exact ih k (by omega) _ x hx
    · rw [hm, List.reduceOption_cons_of_some] at hx
      rw [List.reduceOption_cons_of_some]
      rcases List.mem_cons.mp hx with h | h
      · rw [h]; exact List.mem_cons_self _ _
      · exact List.mem_cons_of_mem _ (ih k (by omega) _ x h)

theorem example_move_neighbors (s : Solution) (n : Nat) (st : TabuState Unit) :
    ∀ x ∈ (tabu_neighbors (example_move (some s)) n st).reduceOption, x = s := by
  induction n generalizing st with
  | zero => intro x hx; simp [tabu_neighbors] at hx
  | succ n ih =>
    intro x hx
    simp only [tabu_neighbors, example_move, List.reduceOption_cons_of_some] at hx
    rcases List.mem_cons.mp hx with h | h
    · exact h
    · exact ih _ x h

theorem example_solution_visits (problem : Problem) (h : problem.customers.length = 2)
    (working_time : ℚ) : visits_each_once problem (example_solution working_time) := by
  intro i h1 h2
  have hi : i = 1 := by omega
  subst hi
  simp [example_solution, Solution.new, all_visited, visited]

/-! ## Lemmas on the checks of a debug build -/

theorem foldlM_flatten {α β : Type} (f : β → α → Except InvariantError β) (L : List (List α))
    (b : β) : L.foldlM (fun b l => l.foldlM f b) b = L.flatten.foldlM f b := by
  induction L generalizing b with
  | nil => rfl
  | cons l L ih =>
    rw [List.flatten_cons, List.foldlM_append, List.foldlM_cons]
    exact bind_congr ih

theorem CHECK_ROUTES_eq {R : Type} (customers : R → List Nat) (vehicle_routes : List (List R))
    (ex : List Bool) :
    CHECK_ROUTES customers vehicle_routes ex =
      (visited customers vehicle_routes).foldlM check_customer ex := by
  unfold CHECK_ROUTES visited
  rw [foldlM_flatten, ← foldlM_flatten check_customer, List.foldlM_map]

theorem getD_set_true (ex : List Bool) (c i : Nat) (hc : c < ex.length) :
    (ex.set c true).getD i false = (decide (i = c) || ex.getD i false) := by
  simp only [List.getD_eq_getElem?_getD, List.getElem?_set, hc, if_true]
  by_cases h : c = i
  · subst h; simp
  · have h2 : ¬ i = c := fun e => h e.symm
    simp [h, h2]

theorem scan_spec (l p : List Nat) (ex : List Bool)
    (hrep : ∀ i, ex.getD i false = decide (i ∈ p)) (hb : ∀ c ∈ l, c < ex.length)
    (hp : (p.filter (fun c => c ≠ 0)).Nodup) :
    (((p ++ l).filter (fun c => c ≠ 0)).Nodup →
        ∃ ex', l.foldlM check_customer ex = Except.ok ex' ∧ ex'.length = ex.length ∧
          ∀ i, ex'.getD i false = decide (i ∈ p ++ l)) ∧
      (¬ ((p ++ l).filter (fun c => c ≠ 0)).Nodup →
        ∃ c, l.foldlM check_customer ex =
          Except.error (InvariantError.visited_more_than_once c)) := by
  induction l generalizing p ex with
  | nil =>
    refine ⟨fun _ => ⟨ex, rfl, rfl, by simpa using hrep⟩, fun h => ?_⟩
    rw [List.append_nil] at h
    exact absurd hp h
  | cons c l ih =>
    have hc : c < ex.length := hb c (List.mem_cons_self c l)
    by_cases hdup : c ∈ p ∧ c ≠ 0
    · have hstep : check_customer ex c =
          Except.error (InvariantError.visited_more_than_once c) := by
        unfold check_customer
        rw [hrep c]
        simp [hdup.1, hdup.2]
        rfl
      have hnd : ¬ ((p ++ c :: l).filter (fun c => c ≠ 0)).Nodup := by
        intro h
        rw [List.filter_append, List.nodup_append] at h
        have h1 : c ∈ p.filter (fun c => c ≠ 0) := by simp [List.mem_filter, hdup.1, hdup.2]
        have h2 : c ∈ (c :: l).filter (fun c => c ≠ 0) := by simp [List.mem_filter, hdup.2]
        exact h.2.2 h1 h2
      refine ⟨fun h => absurd h hnd, fun _ => ⟨c, ?_⟩⟩
      rw [List.foldlM_cons, hstep]
      rfl
    · have hstep : check_customer ex c = Except.ok (ex.set c true) := by
        unfold check_customer
        rw [hrep c]
        by_cases h0 : c = 0
        · simp [h0]; rfl
        · have : c ∉ p := fun h => hdup ⟨h, h0⟩
          simp [this]; rfl
      have hfold : List.foldlM check_customer ex (c :: l) =
          List.foldlM check_customer (ex.set c true) l := by
        rw [List.foldlM_cons, hstep]
        rfl
      have hrep1 : ∀ i, (ex.set c true).getD i false = decide (i ∈ p ++ [c]) := by
        intro i
        rw [getD_set_true ex c i hc, hrep i]
        simp [or_comm]
      have hb1 : ∀ d ∈ l, d < (ex.set c true).length := by
        intro d hd
        rw [List.length_set]
        exact hb d (List.mem_cons_of_mem c hd)
      have hp1 : ((p ++ [c]).filter (fun c => c ≠ 0)).Nodup := by
        rw [List.filter_append, List.nodup_append]
        refine ⟨hp, (List.nodup_singleton c).sublist (List.filter_sublist _), ?_⟩
        intro a ha1 ha2
        rw [List.mem_filter] at ha1 ha2
        have : a = c := by simpa using ha2.1
        subst this
        exact hdup ⟨ha1.1, by simpa using ha1.2⟩
      have happ : (p ++ [c]) ++ l = p ++ c :: l := by simp
      have := ih (p ++ [c]) (ex.set c true) hrep1 hb1 hp1
      rw [happ, List.length_set] at this
      rw [hfold]
      exact this

theorem check_missing_spec (ex : List Bool) :
    ((∀ i, i < ex.length → ex.getD i false = true) → check_missing ex = Except.ok ()) ∧
      (¬ (∀ i, i < ex.length → ex.getD i false = true) →
        ∃ i, i < ex.length ∧ ex.getD i false = false ∧
          check_missing ex = Except.error (InvariantError.missing i)) := by
  have key : ∀ l : List Nat,
      ((∀ i ∈ l, ex.getD i false = true) →
        l.foldlM (check_present ex) () =
            Except.ok ()) ∧
      (¬ (∀ i ∈ l, ex.getD i false = true) →
        ∃ i, i ∈ l ∧ ex.getD i false = false ∧
          l.foldlM (check_present ex) () =
              Except.error (InvariantError.missing i)) := by
    intro l
    induction l with
    | nil => exact ⟨fun _ => rfl, fun h => absurd (by simp) h⟩
    | cons a l ih =>
      by_cases ha : ex.getD a false = true
      · have hfold : List.foldlM (check_present ex) () (a :: l) =
            List.foldlM (check_present ex) () l := by
          rw [List.foldlM_cons]
          simp only [check_present, ha]
          rfl
        rw [hfold]
        constructor
        · intro h
          exact ih.1 (fun i hi => h i (List.mem_cons_of_mem a hi))
        · intro h
          have : ¬ (∀ i ∈ l, ex.getD i false = true) := by
            intro h2
            apply h
            intro i hi
            rcases List.mem_cons.mp hi with h3 | h3
            · rw [h3]; exact ha
            · exact h2 i h3
          obtain ⟨i, hi, hv, he⟩ := ih.2 this
          exact ⟨i, List.mem_cons_of_mem a hi, hv, he⟩
      · have hf : ex.getD a false = false := by simpa using ha
        constructor
        · intro h
          exact absurd (h a (List.mem_cons_self a l)) ha
        · intro _
          refine ⟨a, List.mem_cons_self a l, hf, ?_⟩
          rw [List.foldlM_cons]
          simp only [check_present, hf]
          rfl
  unfold check_missing
  have k := key (List.range ex.length)
  simp only [List.mem_range] at k
  exact k

theorem nodup_filter_iff_count (l : List Nat) :
    (l.filter (fun c => c ≠ 0)).Nodup ↔ ∀ c, c ≠ 0 → l.count c ≤ 1 := by
  rw [List.nodup_iff_count_le_one]
  constructor
  · intro h c hc
    have := h c
    rwa [List.count_filter (by simpa using hc)] at this
  · intro h c
    by_cases hc : c = 0
    · have : c ∉ l.filter (fun c => c ≠ 0) := by simp [List.mem_filter, hc]
      rw [List.count_eq_zero_of_not_mem this]
      exact Nat.zero_le 1
    · rw [List.count_filter (by simpa using hc)]
      exact h c hc

theorem new_debug_spec (problem : Problem) (truck_routes : List (List TruckRoute))
    (drone_routes : List (List DroneRoute))
    (hb : ∀ c ∈ all_visited truck_routes drone_routes, c < problem.customers.length) :
    (((all_visited truck_routes drone_routes).filter (fun c => c ≠ 0)).Nodup →
        (∀ i, i < problem.customers.length → i ∈ all_visited truck_routes drone_routes) →
        Solution.new_debug problem truck_routes drone_routes =
          Except.ok (Solution.new truck_routes drone_routes)) ∧
      (¬ ((all_visited truck_routes drone_routes).filter (fun c => c ≠ 0)).Nodup →
        ∃ c, Solution.new_debug problem truck_routes drone_routes =
          Except.error (InvariantError.visited_more_than_once c)) ∧
      (¬ (∀ i, i < problem.customers.length → i ∈ all_visited truck_routes drone_routes) →
        ∃ e, Solution.new_debug problem truck_routes drone_routes = Except.error e) := by
  unfold Solution.new_debug
  simp only [CHECK_ROUTES_eq]
  unfold all_visited at hb ⊢
  generalize visited TruckRoute.customers truck_routes = vt at hb ⊢
  generalize visited DroneRoute.customers drone_routes = vd at hb ⊢
  have hrep0 : ∀ i, (List.replicate problem.customers.length false).getD i false =
      decide (i ∈ ([] : List Nat)) := by
    intro i
    simp only [List.getD_eq_getElem?_getD, List.getElem?_replicate, List.not_mem_nil,
      decide_False]
    split <;> rfl
  have hb0 : ∀ c ∈ vt, c < (List.replicate problem.customers.length false).length := by
    intro c hc
    rw [List.length_replicate]
    exact hb c (List.mem_append_left vd hc)
  have s1 := scan_spec vt [] (List.replicate problem.customers.length false) hrep0 hb0
    (by simp)
  rw [List.nil_append] at s1
  by_cases hnt : (vt.filter (fun c => c ≠ 0)).Nodup
  · obtain ⟨ex1, he1, hl1, hrep1⟩ := s1.1 hnt
    rw [List.length_replicate] at hl1
    have hb1 : ∀ c ∈ vd, c < ex1.length := by
      intro c hc
      rw [hl1]
      exact hb c (List.mem_append_right vt hc)
    have s2 := scan_spec vd vt ex1 hrep1 hb1 hnt
    by_cases hn : ((vt ++ vd).filter (fun c => c ≠ 0)).Nodup
    · obtain ⟨ex2, he2, hl2, hrep2⟩ := s2.1 hn
      rw [hl1] at hl2
      have hm := check_missing_spec ex2
      rw [hl2] at hm
      simp only [hrep2, decide_eq_true_eq, decide_eq_false_iff_not] at hm
      refine ⟨fun _ hall => ?_, fun h => absurd hn h, fun hmiss => ?_⟩
      · rw [he1]
        show (do
          let ex ← List.foldlM check_customer ex1 vd
          check_missing ex
          pure (Solution.new truck_routes drone_routes)) = _
        rw [he2]
        show (do
          check_missing ex2
          pure (Solution.new truck_routes drone_routes)) = _
        rw [hm.1 hall]
        rfl
      · obtain ⟨i, _, _, he⟩ := hm.2 hmiss
        refine ⟨InvariantError.missing i, ?_⟩
        rw [he1]
        show (do
          let ex ← List.foldlM check_customer ex1 vd
          check_missing ex
          pure (Solution.new truck_routes drone_routes)) = _
        rw [he2]
        show (do
          check_missing ex2
          pure (Solution.new truck_routes drone_routes)) = _
        rw [he]
        rfl
    · obtain ⟨c, he2⟩ := s2.2 hn
      have herr : (do
          let ex ← List.foldlM check_customer (List.replicate problem.customers.length false) vt
          let ex ← List.foldlM check_customer ex vd
          check_missing ex
          pure (Solution.new truck_routes drone_routes)) =
          Except.error (InvariantError.visited_more_than_once c) := by
        rw [he1]
        show (do
          let ex ← List.foldlM check_customer ex1 vd
          check_missing ex
          pure (Solution.new truck_routes drone_routes)) = _
        rw [he2]
        rfl
      exact ⟨fun h => absurd h hn, fun _ => ⟨c, herr⟩, fun _ => ⟨_, herr⟩⟩
  · obtain ⟨c, he1⟩ := s1.2 hnt
    have hn : ¬ ((vt ++ vd).filter (fun c => c ≠ 0)).Nodup := by
      intro h
      rw [List.filter_append] at h
      exact hnt (List.nodup_append.mp h).1
    have herr : (do
        let ex ← List.foldlM check_customer (List.replicate problem.customers.length false) vt
        let ex ← List.foldlM check_customer ex vd
        check_missing ex
        pure (Solution.new truck_routes drone_routes)) =
        Except.error (InvariantError.visited_more_than_once c) := by
      rw [he1]
      rfl
    exact ⟨fun h => absurd h hn, fun _ => ⟨c, herr⟩, fun _ => ⟨_, herr⟩⟩


/-! ## Lemmas on the problem context -/

theorem pow2_sum_nonneg (dx dy : ℚ) : 0 ≤ utils.pow2 dx + utils.pow2 dy := by
  unfold utils.pow2
  nlinarith [mul_self_nonneg dx, mul_self_nonneg dy]

theorem distance_eq_ok (dx dy : ℚ) :
    utils.distance dx dy = Except.ok (distance_value dx dy) := by
  have h := pow2_sum_nonneg dx dy
  unfold distance_value utils.distance utils.sqrt
  rw [if_neg (not_lt.mpr h)]
  split_ifs <;> rfl

theorem distance_value_neg (dx dy : ℚ) : distance_value (-dx) (-dy) = distance_value dx dy := by
  unfold distance_value utils.distance utils.pow2
  rw [neg_mul_neg, neg_mul_neg]

theorem customer_distance_comm (customers : List Customer) (i j : Nat) :
    customer_distance customers i j = customer_distance customers j i := by
  unfold customer_distance
  rw [← distance_value_neg]
  congr 1 <;> ring

theorem foldlM_ok {α β ε : Type} (f : β → α → Except ε β) (g : β → α → β)
    (h : ∀ b a, f b a = Except.ok (g b a)) (l : List α) (b : β) :
    l.foldlM f b = Except.ok (l.foldl g b) := by
  induction l generalizing b with
  | nil => rfl
  | cons a l ih =>
    rw [List.foldlM_cons, h, List.foldl_cons]
    exact ih (g b a)

theorem getD_set_eq {α : Type} (l : List α) (i a : Nat) (v d : α) :
    (l.set i v).getD a d = if i = a ∧ i < l.length then v else l.getD a d := by
  simp only [List.getD_eq_getElem?_getD, List.getElem?_set]
  by_cases h1 : i = a
  · by_cases h2 : i < l.length
    · subst h1
      simp [h2]
    · subst h1
      have h3 : l.length ≤ i := Nat.le_of_not_lt h2
      simp [h2, List.getElem?_eq_none h3]
  · simp [h1]

theorem square_set_entry (n : Nat) (distances : List (List ℚ)) (i j : Nat) (value : ℚ)
    (hs : Square n distances) : Square n (set_entry distances i j value) := by
  obtain ⟨h1, h2⟩ := hs
  refine ⟨by simp [set_entry, h1], ?_⟩
  intro a ha
  unfold set_entry
  rw [getD_set_eq]
  by_cases hia : i = a ∧ i < distances.length
  · rw [if_pos hia, List.length_set]
    exact h2 i (hia.1 ▸ ha)
  · rw [if_neg hia]
    exact h2 a ha

theorem entry_set_entry (n : Nat) (distances : List (List ℚ)) (i j : Nat) (value : ℚ)
    (hs : Square n distances) (hi : i < n) (hj : j < n) (a b : Nat) :
    entry (set_entry distances i j value) a b =
      if a = i ∧ b = j then value else entry distances a b := by
  obtain ⟨h1, h2⟩ := hs
  unfold entry set_entry
  rw [getD_set_eq]
  by_cases hia : i = a
  · subst hia
    rw [if_pos ⟨rfl, h1 ▸ hi⟩, getD_set_eq]
    by_cases hjb : j = b
    · subst hjb
      rw [if_pos ⟨rfl, (h2 i hi).symm ▸ hj⟩, if_pos ⟨rfl, rfl⟩]
    · have : ¬ (i = i ∧ b = j) := fun e => hjb e.2.symm
      rw [if_neg (fun e => hjb e.1), if_neg this]
  · have : ¬ (a = i ∧ b = j) := fun e => hia e.1.symm
    rw [if_neg (fun e => hia e.1), if_neg this]

theorem assign_distance_eq (customers : List Customer) (i : Nat) (distances : List (List ℚ))
    (j : Nat) :
    Problem.assign_distance customers i distances j =
      Except.ok (set_entry (set_entry distances j i (customer_distance customers i j)) i j
        (customer_distance customers i j)) := by
  unfold Problem.assign_distance customer_distance
  rw [distance_eq_ok]
  rfl

theorem fill_pairs (customers : List Customer) (n : Nat) (ps : List (Nat × Nat))
    (distances : List (List ℚ)) (hs : Square n distances)
    (hp : ∀ p ∈ ps, p.1 < n ∧ p.2 < n) :
    Square n (ps.foldl (fun d p => set_entry (set_entry d p.2 p.1
        (customer_distance customers p.1 p.2)) p.1 p.2 (customer_distance customers p.1 p.2))
        distances) ∧
      ∀ a b, entry (ps.foldl (fun d p => set_entry (set_entry d p.2 p.1
        (customer_distance customers p.1 p.2)) p.1 p.2 (customer_distance customers p.1 p.2))
        distances) a b =
        if (a, b) ∈ ps ∨ (b, a) ∈ ps then customer_distance customers a b
        else entry distances a b := by
  induction ps generalizing distances with
  | nil => exact ⟨hs, fun a b => by simp⟩
  | cons p ps ih =>
    obtain ⟨hp1, hp2⟩ := hp p (List.mem_cons_self p ps)
    have hs1 := square_set_entry n distances p.2 p.1 (customer_distance customers p.1 p.2) hs
    have hs2 := square_set_entry n _ p.1 p.2 (customer_distance customers p.1 p.2) hs1
    obtain ⟨ih1, ih2⟩ := ih _ hs2 (fun q hq => hp q (List.mem_cons_of_mem p hq))
    rw [List.foldl_cons]
    refine ⟨ih1, fun a b => ?_⟩
    rw [ih2 a b, entry_set_entry n _ p.1 p.2 _ hs1 hp1 hp2,
      entry_set_entry n _ p.2 p.1 _ hs hp2 hp1]
    by_cases h1 : (a, b) ∈ ps ∨ (b, a) ∈ ps
    · have : (a, b) ∈ p :: ps ∨ (b, a) ∈ p :: ps :=
        h1.imp (List.mem_cons_of_mem p) (List.mem_cons_of_mem p)
      rw [if_pos h1, if_pos this]
    · rw [if_neg h1]
      by_cases h2 : a = p.1 ∧ b = p.2
      · have : (a, b) ∈ p :: ps ∨ (b, a) ∈ p :: ps := by
          left; rw [h2.1, h2.2]; exact List.mem_cons_self p ps
        rw [if_pos h2, if_pos this, h2.1, h2.2]
      · rw [if_neg h2]
        by_cases h3 : a = p.2 ∧ b = p.1
        · have : (a, b) ∈ p :: ps ∨ (b, a) ∈ p :: ps := by
            right; rw [h3.1, h3.2]; exact List.mem_cons_self p ps
          rw [if_pos h3, if_pos this, h3.1, h3.2]
          exact customer_distance_comm customers p.1 p.2
        · have : ¬ ((a, b) ∈ p :: ps ∨ (b, a) ∈ p :: ps) := by
            rintro (h | h)
            · rcases List.mem_cons.mp h with h | h
              · exact h2 ⟨by rw [← h], by rw [← h]⟩
              · exact h1 (Or.inl h)
            · rcases List.mem_cons.mp h with h | h
              · exact h3 ⟨by rw [← h], by rw [← h]⟩
              · exact h1 (Or.inr h)
          rw [if_neg h3, if_neg this]

theorem foldl_nested_pairs {β : Type} (g : β → Nat × Nat → β) (js : Nat → List Nat)
    (l : List Nat) (b : β) :
    l.foldl (fun b i => (js i).foldl (fun b j => g b (i, j)) b) b =
      ((l.map (fun i => (js i).map (fun j => (i, j)))).flatten).foldl g b := by
  induction l generalizing b with
  | nil => rfl
  | cons i l ih =>
    rw [List.foldl_cons, List.map_cons, List.flatten_cons, List.foldl_append, List.foldl_map]
    exact ih _

theorem mem_pairs (n a b : Nat) :
    (a, b) ∈ ((List.range n).map (fun i =>
      (List.range' (i + 1) (n - (i + 1))).map (fun j => (i, j)))).flatten ↔ a < b ∧ b < n := by
  simp only [List.mem_flatten, List.mem_map, List.mem_range, List.mem_range'_1]
  constructor
  · rintro ⟨l, ⟨i, hi, rfl⟩, hm⟩
    simp only [List.mem_map, List.mem_range'_1, Prod.mk.injEq] at hm
    obtain ⟨j, hj, rfl, rfl⟩ := hm
    omega
  · rintro ⟨h1, h2⟩
    refine ⟨_, ⟨a, by omega, rfl⟩, ?_⟩
    apply List.mem_map.mpr
    exact ⟨b, by rw [List.mem_range'_1]; omega, rfl⟩

theorem square_zero (n : Nat) :
    Square n (List.replicate n (List.replicate n (0 : ℚ))) ∧
      ∀ a b, entry (List.replicate n (List.replicate n (0 : ℚ))) a b = 0 := by
  refine ⟨⟨List.length_replicate _ _, fun i hi => ?_⟩, fun a b => ?_⟩
  · simp [List.getD_eq_getElem?_getD, List.getElem?_replicate, hi]
  · unfold entry
    simp only [List.getD_eq_getElem?_getD, List.getElem?_replicate]
    by_cases ha : a < n
    · by_cases hb : b < n
      · simp [ha, hb]
      · simp [ha, hb]
    · simp [ha]

theorem calculate_distances_spec (customers : List Customer) :
    ∃ distances, Problem.calculate_distances customers = Except.ok distances ∧
      Square customers.length distances ∧
      ∀ a b, a < customers.length → b < customers.length →
        entry distances a b = if a = b then 0 else customer_distance customers a b := by
  have hrow : ∀ d i, Problem.distances_row customers d i =
      Except.ok ((List.range' (i + 1) (customers.length - (i + 1))).foldl
        (fun d j => (fun d (p : Nat × Nat) => set_entry (set_entry d p.2 p.1
          (customer_distance customers p.1 p.2)) p.1 p.2
          (customer_distance customers p.1 p.2)) d (i, j)) d) := by
    intro d i
    exact foldlM_ok _ _ (fun b a => assign_distance_eq customers i b a) _ d
  have hall := foldlM_ok _ _ hrow (List.range customers.length)
    (List.replicate customers.length (List.replicate customers.length (0 : ℚ)))
  have hall := hall.trans (congrArg Except.ok (foldl_nested_pairs
    (fun d (p : Nat × Nat) => set_entry (set_entry d p.2 p.1
      (customer_distance customers p.1 p.2)) p.1 p.2 (customer_distance customers p.1 p.2))
    (fun i => List.range' (i + 1) (customers.length - (i + 1)))
    (List.range customers.length)
    (List.replicate customers.length (List.replicate customers.length (0 : ℚ)))))
  obtain ⟨hz1, hz2⟩ := square_zero customers.length
  have hp : ∀ p ∈ ((List.range customers.length).map (fun i =>
      (List.range' (i + 1) (customers.length - (i + 1))).map (fun j => (i, j)))).flatten,
      p.1 < customers.length ∧ p.2 < customers.length := by
    rintro ⟨a, b⟩ hm
    rw [mem_pairs] at hm
    exact ⟨by omega, hm.2⟩
  obtain ⟨hf1, hf2⟩ := fill_pairs customers customers.length _ _ hz1 hp
  refine ⟨_, hall, hf1, fun a b ha hb => ?_⟩
  rw [hf2 a b, hz2]
  by_cases hab : a = b
  · rw [if_pos hab, if_neg (by rw [mem_pairs, mem_pairs]; omega)]
  · rw [if_neg hab, if_pos (by rw [mem_pairs, mem_pairs]; omega)]

theorem sqrt_loop_bounds (value : ℚ) : ∀ low high : ℚ, 0 ≤ low → low * low < value →
    value ≤ high * high → low < high →
    value ≤ utils.sqrt_loop value low high * utils.sqrt_loop value low high ∧
      0 < utils.sqrt_loop value low high ∧
      ∃ l, 0 ≤ l ∧ l * l < value ∧ utils.sqrt_loop value low high - l ≤ utils.accuracy := by
  intro low high
  induction low, high using utils.sqrt_loop.induct value with
  | case1 low high hw hm ih =>
    intro h0 hl hh hlh
    rw [utils.sqrt_loop, if_pos hw, if_pos hm]
    exact ih (by linarith) hm hh (by linarith)
  | case2 low high hw hm ih =>
    intro h0 hl hh hlh
    rw [utils.sqrt_loop, if_pos hw, if_neg hm]
    exact ih h0 hl (not_lt.mp hm) (by linarith)
  | case3 low high hw =>
    intro h0 hl hh hlh
    rw [utils.sqrt_loop, if_neg hw]
    exact ⟨hh, by linarith, low, h0, hl, not_lt.mp hw⟩

theorem distance_value_bounds (dx dy : ℚ) :
    Real.sqrt ((dx * dx + dy * dy : ℚ) : ℝ) ≤ ((distance_value dx dy : ℚ) : ℝ) ∧
      ((distance_value dx dy : ℚ) : ℝ) <
        Real.sqrt ((dx * dx + dy * dy : ℚ) : ℝ) + ((utils.accuracy : ℚ) : ℝ) := by
  have hv := pow2_sum_nonneg dx dy
  have hacc : (0 : ℝ) < ((utils.accuracy : ℚ) : ℝ) := by
    norm_num [utils.accuracy]
  unfold distance_value utils.distance utils.sqrt
  unfold utils.pow2 at hv ⊢
  rw [if_neg (not_lt.mpr hv)]
  by_cases h0 : dx * dx + dy * dy = 0
  · rw [if_pos h0, h0]
    simp only [pure, Except.pure, Rat.cast_zero, Real.sqrt_zero, le_refl, zero_add, true_and]
    exact hacc
  · rw [if_neg h0]
    have hpos : 0 < dx * dx + dy * dy := lt_of_le_of_ne hv (Ne.symm h0)
    have hmax : dx * dx + dy * dy ≤ max 1 (dx * dx + dy * dy) * max 1 (dx * dx + dy * dy) := by
      rcases le_total (dx * dx + dy * dy) 1 with h | h
      · rw [max_eq_left h]; linarith
      · rw [max_eq_right h]; nlinarith
    have hb := sqrt_loop_bounds (dx * dx + dy * dy) 0 (max 1 (dx * dx + dy * dy)) (le_refl 0)
      (by rw [zero_mul]; exact hpos) hmax (lt_of_lt_of_le zero_lt_one (le_max_left _ _))
    simp only [pure, Except.pure]
    generalize utils.sqrt_loop (dx * dx + dy * dy) 0 (max 1 (dx * dx + dy * dy)) = r at hb
    obtain ⟨h1, h2, l, h3, h4, h5⟩ := hb
    have h1r : ((dx * dx + dy * dy : ℚ) : ℝ) ≤ (r : ℝ) * (r : ℝ) := by exact_mod_cast h1
    have h2r : (0 : ℝ) < (r : ℝ) := by exact_mod_cast h2
    have h3r : (0 : ℝ) ≤ (l : ℝ) := by exact_mod_cast h3
    have h4r : (l : ℝ) * (l : ℝ) < ((dx * dx + dy * dy : ℚ) : ℝ) := by exact_mod_cast h4
    have h5r : (r : ℝ) - (l : ℝ) ≤ ((utils.accuracy : ℚ) : ℝ) := by exact_mod_cast h5
    constructor
    · rw [Real.sqrt_le_left (le_of_lt h2r)]
      rw [pow_two]
      exact h1r
    · have : (l : ℝ) < Real.sqrt ((dx * dx + dy * dy : ℚ) : ℝ) := by
        rw [Real.lt_sqrt h3r, pow_two]
        exact h4r
      linarith

theorem get_instance_ok (cin : Input) (problem : Problem)
    (h : (Problem.get_instance none cin).1 = Except.ok problem) :
    ∃ drone, Problem.read_drone cin
        (if cin._speed_type = "low" then StatsType.low else StatsType.high)
        (if cin._range_type = "low" then StatsType.low else StatsType.high) = Except.ok drone ∧
      Problem.calculate_distances (Problem.read_customers cin) =
        Except.ok problem.distances ∧
      problem.customers = Problem.read_customers cin ∧
      problem.linear = drone.cast_linear ∧ problem.nonlinear = drone.cast_nonlinear ∧
      problem.endurance = drone.cast_endurance ∧
      (Problem.get_instance none cin).2 = some problem := by
  obtain ⟨distances, hd, -, -⟩ := calculate_distances_spec (Problem.read_customers cin)
  unfold Problem.get_instance Problem.build at h ⊢
  simp only [hd] at h ⊢
  rcases hr : Problem.read_drone cin
      (if cin._speed_type = "low" then StatsType.low else StatsType.high)
      (if cin._range_type = "low" then StatsType.low else StatsType.high) with e | drone
  · simp only [hr] at h
    cases h
  · simp only [hr] at h ⊢
    cases h
    exact ⟨drone, rfl, rfl, rfl, rfl, rfl, rfl, rfl⟩

theorem get_instance_error (cin : Input) (e : ProblemError)
    (h : (Problem.get_instance none cin).1 = Except.error e) :
    Problem.read_drone cin
        (if cin._speed_type = "low" then StatsType.low else StatsType.high)
        (if cin._range_type = "low" then StatsType.low else StatsType.high) = Except.error e ∧
      (Problem.get_instance none cin).2 = none := by
  obtain ⟨distances, hd, -, -⟩ := calculate_distances_spec (Problem.read_customers cin)
  unfold Problem.get_instance Problem.build at h ⊢
  simp only [hd] at h ⊢
  rcases hr : Problem.read_drone cin
      (if cin._speed_type = "low" then StatsType.low else StatsType.high)
      (if cin._range_type = "low" then StatsType.low else StatsType.high) with e1 | drone
  · simp only [hr] at h ⊢
    cases h
    exact ⟨rfl, rfl⟩
  · simp only [hr] at h
    cases h

theorem get_instance_of_read_drone (cin : Input) :
    (∀ drone, Problem.read_drone cin
        (if cin._speed_type = "low" then StatsType.low else StatsType.high)
        (if cin._range_type = "low" then StatsType.low else StatsType.high) = Except.ok drone →
      ∃ problem, (Problem.get_instance none cin).1 = Except.ok problem) ∧
    (∀ e, Problem.read_drone cin
        (if cin._speed_type = "low" then StatsType.low else StatsType.high)
        (if cin._range_type = "low" then StatsType.low else StatsType.high) = Except.error e →
      (Problem.get_instance none cin).1 = Except.error e) := by
  obtain ⟨distances, hd, -, -⟩ := calculate_distances_spec (Problem.read_customers cin)
  unfold Problem.get_instance Problem.build
  simp only [hd]
  constructor
  · intro drone hr
    simp only [hr]
    exact ⟨_, rfl⟩
  · intro e hr
    simp only [hr]
    rfl


theorem read_drone_cases (cin : Input) (speed_type range_type : StatsType) :
    (cin.drone_class = "DroneLinearConfig" ∧
        ∃ c, Problem.read_drone cin speed_type range_type =
          Except.ok (_BaseDroneConfig.linear c)) ∨
      (cin.drone_class = "DroneNonlinearConfig" ∧
        ∃ c, Problem.read_drone cin speed_type range_type =
          Except.ok (_BaseDroneConfig.nonlinear c)) ∨
      (cin.drone_class = "DroneEnduranceConfig" ∧
        ∃ c, Problem.read_drone cin speed_type range_type =
          Except.ok (_BaseDroneConfig.endurance c)) ∨
      (cin.drone_class ≠ "DroneLinearConfig" ∧ cin.drone_class ≠ "DroneNonlinearConfig" ∧
        cin.drone_class ≠ "DroneEnduranceConfig" ∧
        Problem.read_drone cin speed_type range_type =
          Except.error (ProblemError.unknown_drone_energy_model cin.drone_class)) := by
  unfold Problem.read_drone
  by_cases h1 : cin.drone_class = "DroneLinearConfig"
  · left
    rw [if_pos h1]
    exact ⟨h1, _, rfl⟩
  · by_cases h2 : cin.drone_class = "DroneNonlinearConfig"
    · right; left
      rw [if_neg h1, if_pos h2]
      exact ⟨h2, _, rfl⟩
    · by_cases h3 : cin.drone_class = "DroneEnduranceConfig"
      · right; right; left
        rw [if_neg h1, if_neg h2, if_pos h3]
        exact ⟨h3, _, rfl⟩
      · right; right; right
        rw [if_neg h1, if_neg h2, if_neg h3]
        exact ⟨h1, h2, h3, rfl⟩

theorem get_instance_drone (cin : Input) (problem : Problem)
    (h : (Problem.get_instance none cin).1 = Except.ok problem) :
    Problem.read_drone cin
        (if cin._speed_type = "low" then StatsType.low else StatsType.high)
        (if cin._range_type = "low" then StatsType.low else StatsType.high) =
      Except.ok problem.drone := by
  obtain ⟨distances, hd, -, -⟩ := calculate_distances_spec (Problem.read_customers cin)
  unfold Problem.get_instance Problem.build at h
  simp only [hd] at h
  rcases hr : Problem.read_drone cin
      (if cin._speed_type = "low" then StatsType.low else StatsType.high)
      (if cin._range_type = "low" then StatsType.low else StatsType.high) with e | drone
  · simp only [hr] at h
    cases h
  · simp only [hr] at h
    cases h
    rfl

theorem read_drone_types (cin : Input) (speed_type range_type : StatsType)
    (drone : _BaseDroneConfig)
    (h : Problem.read_drone cin speed_type range_type = Except.ok drone) :
    drone.speed_type = speed_type ∧ drone.range_type = range_type := by
  unfold Problem.read_drone at h
  split_ifs at h <;> cases h <;> exact ⟨rfl, rfl⟩

theorem get_instance_installed (problem : Problem) (cin : Input) :
    Problem.get_instance (some problem) cin = (Except.ok problem, some problem) := rfl

theorem calls_installed (problem : Problem) (later : List Input) :
    Problem.calls (some problem) later =
      (later.map (fun _ => Except.ok problem), some problem) := by
  induction later with
  | nil => rfl
  | cons cin rest ih =>
    simp only [Problem.calls, get_instance_installed, ih, List.map_cons]

/-! ## Lemmas on the bisection -/

theorem sqrt_step_width (value : ℚ) (state : ℚ × ℚ) :
    (sqrt_step value state).2 - (sqrt_step value state).1 = (state.2 - state.1) / 2 := by
  unfold sqrt_step
  split_ifs <;> simp only [] <;> ring

theorem sqrt_iterate_width (value : ℚ) (k : Nat) (state : ℚ × ℚ) :
    ((sqrt_step value)^[k] state).2 - ((sqrt_step value)^[k] state).1 =
      (state.2 - state.1) / 2 ^ k := by
  induction k with
  | zero => simp
  | succ k ih =>
    rw [Function.iterate_succ_apply', sqrt_step_width, ih, pow_succ]
    field_simp

theorem sqrt_loop_turn (value : ℚ) (state : ℚ × ℚ) (h : utils.accuracy < state.2 - state.1) :
    utils.sqrt_loop value state.1 state.2 =
      utils.sqrt_loop value (sqrt_step value state).1 (sqrt_step value state).2 := by
  rw [utils.sqrt_loop, if_pos h]
  unfold sqrt_step
  split_ifs <;> rfl

theorem sqrt_loop_exit (value : ℚ) (state : ℚ × ℚ) (h : ¬ utils.accuracy < state.2 - state.1) :
    utils.sqrt_loop value state.1 state.2 = state.2 := by
  rw [utils.sqrt_loop, if_neg h]

theorem sqrt_loop_turns (value : ℚ) (n : Nat) :
    ∀ state : ℚ × ℚ,
      (∀ k, k < n → utils.accuracy <
        ((sqrt_step value)^[k] state).2 - ((sqrt_step value)^[k] state).1) →
      utils.sqrt_loop value state.1 state.2 =
        utils.sqrt_loop value ((sqrt_step value)^[n] state).1 ((sqrt_step value)^[n] state).2 := by
  induction n with
  | zero => intro state _; rfl
  | succ n ih =>
    intro state h
    rw [sqrt_loop_turn value state (h 0 (Nat.succ_pos n)), Function.iterate_succ_apply]
    apply ih
    intro k hk
    have := h (k + 1) (Nat.succ_lt_succ hk)
    rwa [Function.iterate_succ_apply] at this

theorem exists_width_le (width : ℚ) : ∃ n : Nat, width / 2 ^ n ≤ utils.accuracy := by
  obtain ⟨n, hn⟩ := exists_nat_gt (width / utils.accuracy)
  refine ⟨n, ?_⟩
  have hacc : (0 : ℚ) < utils.accuracy := by norm_num [utils.accuracy]
  have h2 : (n : ℚ) < 2 ^ n := by exact_mod_cast Nat.lt_two_pow n
  have h3 : width / utils.accuracy < 2 ^ n := lt_trans hn h2
  rw [div_lt_iff₀ hacc] at h3
  rw [div_le_iff₀ (by positivity)]
  linarith

/-! ## Lemmas on the vector constructors -/

theorem construct_vectors_cases (max_size : Nat) (cin : Input) :
    Problem.construct_vectors max_size cin = Except.ok () ∨
      Problem.construct_vectors max_size cin = Except.error ProblemError.length_error := by
  unfold Problem.construct_vectors
  split_ifs
  · right; rfl
  · right; rfl
  · right; rfl
  · left; rfl

theorem get_instance_bounded_of_fits (max_size : Nat) (_instance : Option Problem)
    (cin : Input) (h : Problem.construct_vectors max_size cin = Except.ok ()) :
    Problem.get_instance_bounded max_size _instance cin = Problem.get_instance _instance cin := by
  unfold Problem.get_instance_bounded Problem.get_instance
  rw [h]

theorem get_instance_bounded_of_length_error (max_size : Nat) (cin : Input)
    (h : Problem.construct_vectors max_size cin = Except.error ProblemError.length_error) :
    Problem.get_instance_bounded max_size none cin =
      (Except.error ProblemError.length_error, none) := by
  unfold Problem.get_instance_bounded
  rw [h]

theorem get_instance_bounded_ok (max_size : Nat) (cin : Input) (problem : Problem)
    (h : (Problem.get_instance_bounded max_size none cin).1 = Except.ok problem) :
    Problem.construct_vectors max_size cin = Except.ok () ∧
      (Problem.get_instance none cin).1 = Except.ok problem ∧
      (Problem.get_instance_bounded max_size none cin).2 = some problem := by
  rcases construct_vectors_cases max_size cin with hc | hc
  · rw [get_instance_bounded_of_fits max_size none cin hc] at h ⊢
    obtain ⟨_, -, -, -, -, -, -, hinst⟩ := get_instance_ok cin problem h
    exact ⟨hc, h, hinst⟩
  · rw [get_instance_bounded_of_length_error max_size cin hc] at h
    cases h

theorem get_instance_bounded_error (max_size : Nat) (cin : Input) (e : ProblemError)
    (h : (Problem.get_instance_bounded max_size none cin).1 = Except.error e) :
    (Problem.get_instance_bounded max_size none cin).2 = none ∧
      ((Problem.construct_vectors max_size cin = Except.error ProblemError.length_error ∧
          e = ProblemError.length_error) ∨
        (Problem.construct_vectors max_size cin = Except.ok () ∧
          (Problem.get_instance none cin).1 = Except.error e)) := by
  rcases construct_vectors_cases max_size cin with hc | hc
  · rw [get_instance_bounded_of_fits max_size none cin hc] at h ⊢
    exact ⟨(get_instance_error cin e h).2, Or.inr ⟨hc, h⟩⟩
  · rw [get_instance_bounded_of_length_error max_size cin hc] at h ⊢
    cases h
    exact ⟨rfl, Or.inl ⟨hc, rfl⟩⟩

theorem read_drone_error_iff (cin : Input) (speed_type range_type : StatsType)
    (e : ProblemError) :
    Problem.read_drone cin speed_type range_type = Except.error e ↔
      (cin.drone_class ≠ "DroneLinearConfig" ∧ cin.drone_class ≠ "DroneNonlinearConfig" ∧
        cin.drone_class ≠ "DroneEnduranceConfig") ∧
      e = ProblemError.unknown_drone_energy_model cin.drone_class := by
  rcases read_drone_cases cin speed_type range_type with
    ⟨hcl, c, h⟩ | ⟨hcl, c, h⟩ | ⟨hcl, c, h⟩ | ⟨h1, h2, h3, h⟩
  · rw [h]
    exact ⟨fun he => (by cases he), fun he => absurd hcl he.1.1⟩
  · rw [h]
    exact ⟨fun he => (by cases he), fun he => absurd hcl he.1.2.1⟩
  · rw [h]
    exact ⟨fun he => (by cases he), fun he => absurd hcl he.1.2.2⟩
  · rw [h]
    constructor
    · intro he
      cases he
      exact ⟨⟨h1, h2, h3⟩, rfl⟩
    · rintro ⟨-, rfl⟩
      rfl

theorem get_instance_error_iff (cin : Input) (e : ProblemError) :
    (Problem.get_instance none cin).1 = Except.error e ↔
      (cin.drone_class ≠ "DroneLinearConfig" ∧ cin.drone_class ≠ "DroneNonlinearConfig" ∧
        cin.drone_class ≠ "DroneEnduranceConfig") ∧
      e = ProblemError.unknown_drone_energy_model cin.drone_class := by
  rw [← read_drone_error_iff cin
    (if cin._speed_type = "low" then StatsType.low else StatsType.high)
    (if cin._range_type = "low" then StatsType.low else StatsType.high) e]
  exact ⟨fun h => (get_instance_error cin e h).1, fun h => (get_instance_of_read_drone cin).2 e h⟩

theorem get_instance_bounded_error_congr (max_size : Nat) (cin other : Input)
    (h1 : cin.customers_count = other.customers_count)
    (h2 : cin.truck_coefficients_count = other.truck_coefficients_count)
    (h3 : cin.drone_class = other.drone_class) (e : ProblemError) :
    (Problem.get_instance_bounded max_size none cin).1 = Except.error e ↔
      (Problem.get_instance_bounded max_size none other).1 = Except.error e := by
  have hcv : Problem.construct_vectors max_size cin =
      Problem.construct_vectors max_size other := by
    unfold Problem.construct_vectors
    rw [h1, h2]
  rcases construct_vectors_cases max_size other with hc | hc
  · rw [get_instance_bounded_of_fits max_size none cin (hcv.trans hc),
      get_instance_bounded_of_fits max_size none other hc,
      get_instance_error_iff, get_instance_error_iff, h3]
  · rw [get_instance_bounded_of_length_error max_size cin (hcv.trans hc),
      get_instance_bounded_of_length_error max_size other hc]

/-! ## Theorems -/

/-- C1: when every route has a non-negative `working_time()`, the `working_time` of the
constructed Solution is the maximum of the per-vehicle totals: it bounds every vehicle's
total from above, it is one of the totals when there is a vehicle, and it is 0 when there
is none. -/
theorem working_time_is_makespan (truck_routes : List (List TruckRoute))
    (drone_routes : List (List DroneRoute))
    (ht : ∀ routes ∈ truck_routes, ∀ r ∈ routes, 0 ≤ r.working_time)
    (hd : ∀ routes ∈ drone_routes, ∀ r ∈ routes, 0 ≤ r.working_time) :
    (∀ t ∈ vehicle_totals truck_routes drone_routes,
        t ≤ (Solution.new truck_routes drone_routes).working_time) ∧
      (vehicle_totals truck_routes drone_routes ≠ [] →
        (Solution.new truck_routes drone_routes).working_time ∈
          vehicle_totals truck_routes drone_routes) ∧
      (vehicle_totals truck_routes drone_routes = [] →
        (Solution.new truck_routes drone_routes).working_time = 0) := by
  have hw : (Solution.new truck_routes drone_routes).working_time =
      (vehicle_totals truck_routes drone_routes).foldl max 0 :=
    calculate_working_time_eq truck_routes drone_routes
  have hnn : ∀ t ∈ vehicle_totals truck_routes drone_routes, 0 ≤ t := by
    intro t htm
    simp only [vehicle_totals, List.mem_append, List.mem_map] at htm
    rcases htm with ⟨routes, hr, rfl⟩ | ⟨routes, hr, rfl⟩
    · apply List.sum_nonneg
      intro x hx
      obtain ⟨r, hrm, rfl⟩ := List.mem_map.mp hx
      exact ht routes hr r hrm
    · apply List.sum_nonneg
      intro x hx
      obtain ⟨r, hrm, rfl⟩ := List.mem_map.mp hx
      exact hd routes hr r hrm
  rw [hw]
  refine ⟨foldl_max_ge_mem _ 0, ?_, ?_⟩
  · intro hne
    rcases foldl_max_mem (vehicle_totals truck_routes drone_routes) 0 with h | h
    · obtain ⟨t, tl, htl⟩ := List.exists_cons_of_ne_nil hne
      have htm : t ∈ vehicle_totals truck_routes drone_routes := by rw [htl]; simp
      have h1 := foldl_max_ge_mem (vehicle_totals truck_routes drone_routes) 0 t htm
      have h2 := hnn t htm
      have h3 : t = 0 := le_antisymm (h ▸ h1) h2
      rw [h, ← h3]; exact htm
    · exact h
  · intro he
    rw [he]; rfl

/-- C1 at one truck with a route `[0, 1, 0]` of working time 10 and one drone with a route
`[0, 2, 0]` of working time 4. -/
theorem working_time_is_makespan_witness :
    (∀ t ∈ vehicle_totals [[⟨[0, 1, 0], 10, 0⟩]] [[⟨[0, 2, 0], 4, 0, 0⟩]],
        t ≤ (Solution.new [[⟨[0, 1, 0], 10, 0⟩]] [[⟨[0, 2, 0], 4, 0, 0⟩]]).working_time) ∧
      (vehicle_totals [[⟨[0, 1, 0], 10, 0⟩]] [[⟨[0, 2, 0], 4, 0, 0⟩]] ≠ [] →
        (Solution.new [[⟨[0, 1, 0], 10, 0⟩]] [[⟨[0, 2, 0], 4, 0, 0⟩]]).working_time ∈
          vehicle_totals [[⟨[0, 1, 0], 10, 0⟩]] [[⟨[0, 2, 0], 4, 0, 0⟩]]) ∧
      (vehicle_totals [[⟨[0, 1, 0], 10, 0⟩]] [[⟨[0, 2, 0], 4, 0, 0⟩]] = [] →
        (Solution.new [[⟨[0, 1, 0], 10, 0⟩]] [[⟨[0, 2, 0], 4, 0, 0⟩]]).working_time = 0) :=
  working_time_is_makespan [[⟨[0, 1, 0], 10, 0⟩]] [[⟨[0, 2, 0], 4, 0, 0⟩]]
    (by simp) (by simp)

/-- C2: the solution returned by `tabu_search` is the initial solution or one of the
neighbors returned during the run, its cost is at most the cost of the initial solution and
of every returned neighbor (so it is their minimum), and post-processing returns any
solution unchanged. -/
theorem tabu_search_returns_cheapest {σ : Type} (problem : Problem)
    (initial_12_true initial_12_false initial_3 : Solution) (move : Move σ) (env : σ) :
    Solution.tabu_search problem initial_12_true initial_12_false initial_3 move env ∈
        Solution.initial initial_12_true initial_12_false initial_3 ::
          (tabu_neighbors move problem.iterations
            ⟨Solution.initial initial_12_true initial_12_false initial_3,
              Solution.initial initial_12_true initial_12_false initial_3, env⟩).reduceOption ∧
      (∀ c ∈ Solution.initial initial_12_true initial_12_false initial_3 ::
          (tabu_neighbors move problem.iterations
            ⟨Solution.initial initial_12_true initial_12_false initial_3,
              Solution.initial initial_12_true initial_12_false initial_3, env⟩).reduceOption,
        (Solution.tabu_search problem initial_12_true initial_12_false initial_3 move env).cost ≤
          c.cost) ∧
      (∀ s : Solution, Solution.post_optimization s = s) :=
  ⟨tabu_loop_result_mem move problem.iterations
      ⟨Solution.initial initial_12_true initial_12_false initial_3,
        Solution.initial initial_12_true initial_12_false initial_3, env⟩,
    tabu_loop_result_le move problem.iterations
      ⟨Solution.initial initial_12_true initial_12_false initial_3,
        Solution.initial initial_12_true initial_12_false initial_3, env⟩,
    fun _ => rfl⟩

/-- C3: in every iteration the cost of `result` (the best solution) after the iteration is
at most its cost before, whatever the neighborhood returns; hence after any number of
iterations the cost of `result`, and of what `tabu_search` returns, is at most the cost of
the initial solution. -/
theorem best_cost_non_increasing {σ : Type} (move : Move σ) :
    (∀ st : TabuState σ, (tabu_iteration move st).result.cost ≤ st.result.cost) ∧
      (∀ (n : Nat) (st : TabuState σ), (tabu_loop move n st).result.cost ≤ st.result.cost) ∧
      (∀ (problem : Problem) (initial_12_true initial_12_false initial_3 : Solution) (env : σ),
        (Solution.tabu_search problem initial_12_true initial_12_false initial_3 move env).cost ≤
          (Solution.initial initial_12_true initial_12_false initial_3).cost) :=
  ⟨tabu_iteration_cost_le move, tabu_loop_cost_le move,
    fun problem _ _ _ _ => tabu_loop_cost_le move problem.iterations _⟩

/-- C4: `Solution::initial` returns one of the three seeds, and its cost is at most the
cost of each of them. -/
theorem initial_is_cheapest_seed (initial_12_true initial_12_false initial_3 : Solution) :
    (Solution.initial initial_12_true initial_12_false initial_3 = initial_12_true ∨
      Solution.initial initial_12_true initial_12_false initial_3 = initial_12_false ∨
      Solution.initial initial_12_true initial_12_false initial_3 = initial_3) ∧
      (Solution.initial initial_12_true initial_12_false initial_3).cost ≤
        initial_12_true.cost ∧
      (Solution.initial initial_12_true initial_12_false initial_3).cost ≤
        initial_12_false.cost ∧
      (Solution.initial initial_12_true initial_12_false initial_3).cost ≤ initial_3.cost := by
  unfold Solution.initial
  simp only []
  split_ifs with h1 h2 h2
  · exact ⟨Or.inl rfl, le_refl _, le_of_lt h1, le_of_lt h2⟩
  · exact ⟨Or.inr (Or.inr rfl), not_lt.mp h2, le_trans (not_lt.mp h2) (le_of_lt h1), le_refl _⟩
  · exact ⟨Or.inr (Or.inl rfl), not_lt.mp h1, le_refl _, le_of_lt h2⟩
  · exact ⟨Or.inr (Or.inr rfl), le_trans (not_lt.mp h2) (not_lt.mp h1), not_lt.mp h2, le_refl _⟩

/-- C6: the claim fails on an instance that holds the depot alone: with one truck and one
drone, each with an empty route list, no non-depot customer is missing or repeated, yet
the debug constructor raises `Missing customer 0`. -/
theorem debug_constructor_rejects_unvisited_depot :
    (∀ i, 1 ≤ i → i < (example_problem [Customer.depot]).customers.length →
        (all_visited [[]] [[]]).count i = 1) ∧
      (¬ ∃ c, c ≠ 0 ∧ 2 ≤ (all_visited [[]] [[]]).count c) ∧
      Solution.new_debug (example_problem [Customer.depot]) [[]] [[]] =
        Except.error (InvariantError.missing 0) := by
  refine ⟨?_, ?_, rfl⟩
  · intro i h1 h2
    simp only [example_problem, List.length_singleton] at h2
    omega
  · rintro ⟨c, _, h⟩
    simp [all_visited, visited] at h

/-- C6 (amended): in a debug build, for route matrices over customer indices below N, the
constructor raises an error exactly when some customer index below N, the depot 0
included, appears in no route, or some non-depot customer appears more than once; route
matrices in which every non-depot index below N appears exactly once and the depot appears
at least once are accepted. -/
theorem debug_constructor_raises_iff (problem : Problem)
    (truck_routes : List (List TruckRoute)) (drone_routes : List (List DroneRoute))
    (hb : ∀ c ∈ all_visited truck_routes drone_routes, c < problem.customers.length) :
    ((∃ e, Solution.new_debug problem truck_routes drone_routes = Except.error e) ↔
        ((∃ i, i < problem.customers.length ∧ i ∉ all_visited truck_routes drone_routes) ∨
          (∃ c, c ≠ 0 ∧ 2 ≤ (all_visited truck_routes drone_routes).count c))) ∧
      ((∀ i, i < problem.customers.length → i ≠ 0 →
          (all_visited truck_routes drone_routes).count i = 1) →
        0 ∈ all_visited truck_routes drone_routes →
        Solution.new_debug problem truck_routes drone_routes =
          Except.ok (Solution.new truck_routes drone_routes)) := by
  obtain ⟨hok, hdup, hmiss⟩ := new_debug_spec problem truck_routes drone_routes hb
  rw [nodup_filter_iff_count] at hok hdup
  constructor
  · constructor
    · rintro ⟨e, he⟩
      by_contra hcon
      rw [not_or] at hcon
      have h1 : ∀ c, c ≠ 0 → (all_visited truck_routes drone_routes).count c ≤ 1 := by
        intro c hc
        by_contra h
        exact hcon.2 ⟨c, hc, by omega⟩
      have h2 : ∀ i, i < problem.customers.length →
          i ∈ all_visited truck_routes drone_routes := by
        intro i hi
        by_contra h
        exact hcon.1 ⟨i, hi, h⟩
      rw [hok h1 h2] at he
      cases he
    · rintro (⟨i, hi, hni⟩ | ⟨c, hc, hcount⟩)
      · exact hmiss (fun h => hni (h i hi))
      · obtain ⟨d, hd⟩ := hdup (fun h => by have := h c hc; omega)
        exact ⟨_, hd⟩
  · intro hone hzero
    apply hok
    · intro c hc
      by_cases hm : c ∈ all_visited truck_routes drone_routes
      · exact le_of_eq (hone c (hb c hm) hc)
      · rw [List.count_eq_zero_of_not_mem hm]
        exact Nat.zero_le 1
    · intro i hi
      by_cases h0 : i = 0
      · rw [h0]; exact hzero
      · have := hone i hi h0
        exact List.count_pos_iff.mp (by omega)

/-- The amended C6 at one truck with the route `[0, 1, 0]` and one drone without a route,
on an instance with the depot and one customer: the constructor accepts. -/
theorem debug_constructor_raises_iff_witness :
    Solution.new_debug (example_problem [Customer.depot, ⟨3, 4, 1, true, 0, 0⟩])
        [[⟨[0, 1, 0], 10, 0⟩]] [[]] =
      Except.ok (Solution.new [[⟨[0, 1, 0], 10, 0⟩]] [[]]) :=
  (debug_constructor_raises_iff (example_problem [Customer.depot, ⟨3, 4, 1, true, 0, 0⟩])
    [[⟨[0, 1, 0], 10, 0⟩]] [[]]
    (by simp [all_visited, visited, example_problem])).2
    (by
      intro i hi h0
      have h1 : i = 1 := by
        simp only [example_problem, List.length_cons, List.length_nil] at hi
        omega
      subst h1
      simp [all_visited, visited])
    (by simp [all_visited, visited])

/-- C7: the claim fails: on an instance whose customer 1 is not dronable, the debug
constructor accepts a drone route `[0, 1, 0]` that serves customer 1. -/
theorem debug_constructor_accepts_undronable :
    ((example_problem [Customer.depot, ⟨3, 4, 1, false, 0, 0⟩]).customers.map
        (fun c => c.dronable) = [true, false]) ∧
      Solution.new_debug (example_problem [Customer.depot, ⟨3, 4, 1, false, 0, 0⟩])
          [[]] [[⟨[0, 1, 0], 10, 0, 0⟩]] =
        Except.ok (Solution.new [[]] [[⟨[0, 1, 0], 10, 0, 0⟩]]) :=
  ⟨rfl, rfl⟩

/-- C7 (amended): the debug constructor does not consult the dronable flags. Route
matrices over customer indices below N are accepted whenever every customer index below N
appears and no non-depot customer appears more than once, also when a drone route serves a
customer that is not dronable; and replacing the dronable flags of the customers by any
others leaves the outcome of the constructor unchanged. -/
theorem debug_constructor_ignores_dronable (problem : Problem)
    (truck_routes : List (List TruckRoute)) (drone_routes : List (List DroneRoute))
    (hb : ∀ c ∈ all_visited truck_routes drone_routes, c < problem.customers.length)
    (hall : ∀ i, i < problem.customers.length → i ∈ all_visited truck_routes drone_routes)
    (hone : ∀ c, c ≠ 0 → (all_visited truck_routes drone_routes).count c ≤ 1) :
    Solution.new_debug problem truck_routes drone_routes =
        Except.ok (Solution.new truck_routes drone_routes) ∧
      ∀ dronable : Customer → Bool,
        Solution.new_debug
            { problem with
              customers := problem.customers.map (fun c => { c with dronable := dronable c }) }
            truck_routes drone_routes =
          Solution.new_debug problem truck_routes drone_routes := by
  constructor
  · exact (new_debug_spec problem truck_routes drone_routes hb).1
      ((nodup_filter_iff_count _).mpr hone) hall
  · intro dronable
    simp only [Solution.new_debug, List.length_map]

/-- The amended C7 at the drone route `[0, 1, 0]` on an instance whose customer 1 is not
dronable. -/
theorem debug_constructor_ignores_dronable_witness :
    Solution.new_debug (example_problem [Customer.depot, ⟨3, 4, 1, false, 0, 0⟩])
          [[]] [[⟨[0, 1, 0], 10, 0, 0⟩]] =
        Except.ok (Solution.new [[]] [[⟨[0, 1, 0], 10, 0, 0⟩]]) ∧
      ∀ dronable : Customer → Bool,
        Solution.new_debug
            { example_problem [Customer.depot, ⟨3, 4, 1, false, 0, 0⟩] with
              customers := (example_problem [Customer.depot, ⟨3, 4, 1, false, 0, 0⟩]).customers.map
                (fun c => { c with dronable := dronable c }) }
            [[]] [[⟨[0, 1, 0], 10, 0, 0⟩]] =
          Solution.new_debug (example_problem [Customer.depot, ⟨3, 4, 1, false, 0, 0⟩])
            [[]] [[⟨[0, 1, 0], 10, 0, 0⟩]] :=
  debug_constructor_ignores_dronable (example_problem [Customer.depot, ⟨3, 4, 1, false, 0, 0⟩])
    [[]] [[⟨[0, 1, 0], 10, 0, 0⟩]]
    (by simp [all_visited, visited, example_problem])
    (by
      intro i hi
      simp only [example_problem, List.length_cons, List.length_nil] at hi
      have h : i = 0 ∨ i = 1 := by omega
      rcases h with h | h <;> subst h <;> simp [all_visited, visited])
    (by
      intro c hc
      by_cases h1 : c = 1
      · subst h1
        simp [all_visited, visited]
      · have hm : c ∉ all_visited ([[]] : List (List TruckRoute)) [[⟨[0, 1, 0], 10, 0, 0⟩]] := by
          simp [all_visited, visited, hc, h1]
        rw [List.count_eq_zero_of_not_mem hm]
        exact Nat.zero_le 1)

/-- C8: the claim fails: on an input whose drone class token is `DroneEnduranceConfig` and
whose `customers_count` is 2 ^ 64 - 1, with `max_size()` at 2 ^ 60 - 1,
`Problem::get_instance` fails with `std::length_error` and installs no instance. -/
theorem get_instance_fails_with_known_class :
    example_input_oversized.drone_class = "DroneEnduranceConfig" ∧
      (Problem.get_instance_bounded 1152921504606846975 none example_input_oversized).1 =
        Except.error ProblemError.length_error ∧
      (Problem.get_instance_bounded 1152921504606846975 none example_input_oversized).2 =
        none :=
  ⟨rfl, rfl, rfl⟩

/-- C8 (amended): `Problem::get_instance`, called while no instance is installed, returns a
Problem only when the drone class token is one of the three class names, and then the
instance is installed and, of its linear, nonlinear and endurance views, exactly the one
matching the token is set; whenever it raises an exception no instance is installed; the
error for an unknown drone energy model is raised only when the token is none of the three
names; and with such a token no Problem is returned. -/
theorem get_instance_bounded_outcomes (max_size : Nat) (cin : Input) :
    (∀ problem, (Problem.get_instance_bounded max_size none cin).1 = Except.ok problem →
        (cin.drone_class = "DroneLinearConfig" ∨ cin.drone_class = "DroneNonlinearConfig" ∨
          cin.drone_class = "DroneEnduranceConfig") ∧
        (Problem.get_instance_bounded max_size none cin).2 = some problem ∧
        (problem.linear.isSome ↔ cin.drone_class = "DroneLinearConfig") ∧
        (problem.nonlinear.isSome ↔ cin.drone_class = "DroneNonlinearConfig") ∧
        (problem.endurance.isSome ↔ cin.drone_class = "DroneEnduranceConfig")) ∧
      (∀ e, (Problem.get_instance_bounded max_size none cin).1 = Except.error e →
        (Problem.get_instance_bounded max_size none cin).2 = none) ∧
      (∀ drone_class, (Problem.get_instance_bounded max_size none cin).1 =
          Except.error (ProblemError.unknown_drone_energy_model drone_class) →
        drone_class = cin.drone_class ∧ cin.drone_class ≠ "DroneLinearConfig" ∧
          cin.drone_class ≠ "DroneNonlinearConfig" ∧
          cin.drone_class ≠ "DroneEnduranceConfig") ∧
      (cin.drone_class ≠ "DroneLinearConfig" ∧ cin.drone_class ≠ "DroneNonlinearConfig" ∧
          cin.drone_class ≠ "DroneEnduranceConfig" →
        ¬ ∃ problem, (Problem.get_instance_bounded max_size none cin).1 = Except.ok problem) := by
  have hLN : ("DroneLinearConfig" : String) ≠ "DroneNonlinearConfig" := by decide
  have hLE : ("DroneLinearConfig" : String) ≠ "DroneEnduranceConfig" := by decide
  have hNE : ("DroneNonlinearConfig" : String) ≠ "DroneEnduranceConfig" := by decide
  have hc := read_drone_cases cin
    (if cin._speed_type = "low" then StatsType.low else StatsType.high)
    (if cin._range_type = "low" then StatsType.low else StatsType.high)
  have hok : ∀ problem, (Problem.get_instance_bounded max_size none cin).1 = Except.ok problem →
      (cin.drone_class = "DroneLinearConfig" ∨ cin.drone_class = "DroneNonlinearConfig" ∨
        cin.drone_class = "DroneEnduranceConfig") ∧
      (Problem.get_instance_bounded max_size none cin).2 = some problem ∧
      (problem.linear.isSome ↔ cin.drone_class = "DroneLinearConfig") ∧
      (problem.nonlinear.isSome ↔ cin.drone_class = "DroneNonlinearConfig") ∧
      (problem.endurance.isSome ↔ cin.drone_class = "DroneEnduranceConfig") := by
    intro problem hp
    obtain ⟨-, hp1, hinst⟩ := get_instance_bounded_ok max_size cin problem hp
    obtain ⟨drone, hr, -, -, hl, hn, hen, -⟩ := get_instance_ok cin problem hp1
    rw [hl, hn, hen]
    rcases hc with ⟨hcl, c, h⟩ | ⟨hcl, c, h⟩ | ⟨hcl, c, h⟩ | ⟨_, _, _, h⟩
    · rw [h] at hr
      cases hr
      refine ⟨Or.inl hcl, hinst, ?_⟩
      rw [hcl]
      simp [_BaseDroneConfig.cast_linear, _BaseDroneConfig.cast_nonlinear,
        _BaseDroneConfig.cast_endurance, hLN, hLE]
    · rw [h] at hr
      cases hr
      refine ⟨Or.inr (Or.inl hcl), hinst, ?_⟩
      rw [hcl]
      simp [_BaseDroneConfig.cast_linear, _BaseDroneConfig.cast_nonlinear,
        _BaseDroneConfig.cast_endurance, hLN.symm, hNE]
    · rw [h] at hr
      cases hr
      refine ⟨Or.inr (Or.inr hcl), hinst, ?_⟩
      rw [hcl]
      simp [_BaseDroneConfig.cast_linear, _BaseDroneConfig.cast_nonlinear,
        _BaseDroneConfig.cast_endurance, hLE.symm, hNE.symm]
    · rw [h] at hr
      cases hr
  refine ⟨hok, fun e he => (get_instance_bounded_error max_size cin e he).1, ?_, ?_⟩
  · intro drone_class he
    rcases (get_instance_bounded_error max_size cin _ he).2 with ⟨-, h⟩ | ⟨-, h⟩
    · cases h
    · have hr := (get_instance_error cin _ h).1
      rcases hc with ⟨_, c, h1⟩ | ⟨_, c, h1⟩ | ⟨_, c, h1⟩ | ⟨h1, h2, h3, h4⟩
      · rw [h1] at hr; cases hr
      · rw [h1] at hr; cases hr
      · rw [h1] at hr; cases hr
      · rw [h4] at hr
        cases hr
        exact ⟨rfl, h1, h2, h3⟩
  · rintro ⟨h1, h2, h3⟩ ⟨problem, hp⟩
    rcases (hok problem hp).1 with h | h | h
    · exact h1 h
    · exact h2 h
    · exact h3 h

/-- The amended C8 on an input with one customer and an endurance drone, with `max_size()`
at 2 ^ 60 - 1: a Problem is returned and installed, and its endurance view is set. -/
theorem get_instance_bounded_outcomes_witness :
    ∃ problem,
      (Problem.get_instance_bounded 1152921504606846975 none
        (example_input [3] [4] "DroneEnduranceConfig")).1 = Except.ok problem ∧
      (Problem.get_instance_bounded 1152921504606846975 none
        (example_input [3] [4] "DroneEnduranceConfig")).2 = some problem ∧
      problem.endurance.isSome = true := by
  obtain ⟨problem, hp⟩ := (get_instance_of_read_drone
    (example_input [3] [4] "DroneEnduranceConfig")).1 _ rfl
  have hb : (Problem.get_instance_bounded 1152921504606846975 none
      (example_input [3] [4] "DroneEnduranceConfig")).1 = Except.ok problem := by
    rw [get_instance_bounded_of_fits 1152921504606846975 none
      (example_input [3] [4] "DroneEnduranceConfig") rfl]
    exact hp
  obtain ⟨-, hinst, -, -, hen⟩ :=
    (get_instance_bounded_outcomes 1152921504606846975
      (example_input [3] [4] "DroneEnduranceConfig")).1 problem hb
  exact ⟨problem, hb, hinst, hen.mpr rfl⟩

/-- C9: for every input the two nested loops of `Problem::get_instance` build a square
matrix over the customers, the depot included, that is symmetric and has a zero diagonal,
and this matrix is the `distances` of the instance `get_instance` returns. -/
theorem distances_symmetric_zero_diagonal (cin : Input) :
    ∃ distances,
      Problem.calculate_distances (Problem.read_customers cin) = Except.ok distances ∧
      Square (Problem.read_customers cin).length distances ∧
      (∀ i j, i < (Problem.read_customers cin).length →
        j < (Problem.read_customers cin).length →
        entry distances i j = entry distances j i ∧ entry distances i i = 0) ∧
      (∀ problem, (Problem.get_instance none cin).1 = Except.ok problem →
        problem.customers = Problem.read_customers cin ∧ problem.distances = distances) := by
  obtain ⟨distances, hd, hs, he⟩ := calculate_distances_spec (Problem.read_customers cin)
  refine ⟨distances, hd, hs, fun i j hi hj => ⟨?_, ?_⟩, fun problem hp => ?_⟩
  · rw [he i j hi hj, he j i hj hi]
    by_cases hij : i = j
    · rw [if_pos hij, if_pos hij.symm]
    · rw [if_neg hij, if_neg (fun e => hij e.symm)]
      exact customer_distance_comm _ i j
  · rw [he i i hi hi, if_pos rfl]
  · obtain ⟨_, -, hd2, hc, -⟩ := get_instance_ok cin problem hp
    rw [hd] at hd2
    cases hd2
    exact ⟨hc, rfl⟩

/-- C10: the claim fails on its own instance: with one customer at (3, 4), the entry
`distances[0][1]` of the instance `get_instance` returns is 335544325/67108864, the last
`high` of the bisection, which lies above 5 by less than 1e-7 and is not 5. -/
theorem distance_to_3_4_is_not_5 :
    ∃ problem,
      (Problem.get_instance none (example_input [3] [4] "DroneEnduranceConfig")).1 =
        Except.ok problem ∧
      entry problem.distances 0 1 = 335544325 / 67108864 ∧
      entry problem.distances 0 1 ≠ 5 := by
  obtain ⟨problem, hp⟩ := (get_instance_of_read_drone
    (example_input [3] [4] "DroneEnduranceConfig")).1 _ rfl
  obtain ⟨_, -, hd2, -, -⟩ := get_instance_ok _ problem hp
  obtain ⟨distances, hd, -, he⟩ := calculate_distances_spec
    (Problem.read_customers (example_input [3] [4] "DroneEnduranceConfig"))
  rw [hd] at hd2
  cases hd2
  have hv : entry problem.distances 0 1 = 335544325 / 67108864 := by
    rw [he 0 1 (by simp [Problem.read_customers, example_input])
      (by simp [Problem.read_customers, example_input])]
    rw [if_neg (by decide)]
    have h25 : customer_distance
        (Problem.read_customers (example_input [3] [4] "DroneEnduranceConfig")) 0 1 =
        utils.sqrt_loop 25 0 25 := by
      simp only [customer_distance, distance_value, utils.distance, utils.sqrt, utils.pow2,
        Problem.read_customers, example_input, Customer.depot]
      norm_num [List.range, List.range.loop]
      rfl
    rw [h25]
    repeat (rw [utils.sqrt_loop]; norm_num [utils.accuracy])
  refine ⟨problem, hp, hv, ?_⟩
  rw [hv]
  norm_num

/-- C10 (amended): for all customer indices i, j (depot included), `distances[i][j]` is at
least the Euclidean distance between the two customers and exceeds it by less than the
accuracy 1e-7 of the bisection (it is not the Euclidean distance itself: the distance from
the depot to a customer at (3, 4) is 335544325/67108864, not 5). -/
theorem distances_approximate_euclidean (cin : Input) :
    ∃ distances,
      Problem.calculate_distances (Problem.read_customers cin) = Except.ok distances ∧
      (∀ problem, (Problem.get_instance none cin).1 = Except.ok problem →
        problem.customers = Problem.read_customers cin ∧ problem.distances = distances) ∧
      (∀ i j, i < (Problem.read_customers cin).length →
        j < (Problem.read_customers cin).length →
        Real.sqrt
            (((((Problem.read_customers cin).getD i Customer.depot).x -
                ((Problem.read_customers cin).getD j Customer.depot).x) ^ 2 +
              (((Problem.read_customers cin).getD i Customer.depot).y -
                ((Problem.read_customers cin).getD j Customer.depot).y) ^ 2 : ℚ) : ℝ) ≤
          ((entry distances i j : ℚ) : ℝ) ∧
        ((entry distances i j : ℚ) : ℝ) <
          Real.sqrt
            (((((Problem.read_customers cin).getD i Customer.depot).x -
                ((Problem.read_customers cin).getD j Customer.depot).x) ^ 2 +
              (((Problem.read_customers cin).getD i Customer.depot).y -
                ((Problem.read_customers cin).getD j Customer.depot).y) ^ 2 : ℚ) : ℝ) +
            1 / 10000000) := by
  obtain ⟨distances, hd, hs, he⟩ := calculate_distances_spec (Problem.read_customers cin)
  refine ⟨distances, hd, fun problem hp => ?_, fun i j hi hj => ?_⟩
  · obtain ⟨_, -, hd2, hc, -⟩ := get_instance_ok cin problem hp
    rw [hd] at hd2
    cases hd2
    exact ⟨hc, rfl⟩
  · have hb := distance_value_bounds
      (((Problem.read_customers cin).getD i Customer.depot).x -
        ((Problem.read_customers cin).getD j Customer.depot).x)
      (((Problem.read_customers cin).getD i Customer.depot).y -
        ((Problem.read_customers cin).getD j Customer.depot).y)
    have hacc : ((utils.accuracy : ℚ) : ℝ) = 1 / 10000000 := by
      norm_num [utils.accuracy]
    rw [hacc, ← pow_two, ← pow_two] at hb
    rw [he i j hi hj]
    by_cases hij : i = j
    · subst hij
      rw [if_pos rfl]
      simp only [sub_self, ne_eq, OfNat.ofNat_ne_zero, not_false_eq_true, zero_pow, add_zero,
        Rat.cast_zero, Real.sqrt_zero, le_refl, zero_add, true_and]
      norm_num
    · rw [if_neg hij]
      exact hb

/-- C11: the `capacity_violation` of the constructed Solution is the sum of
`capacity_violation()` over all routes of all trucks plus the sum over all routes of all
drones. -/
theorem capacity_violation_is_total (truck_routes : List (List TruckRoute))
    (drone_routes : List (List DroneRoute)) :
    (Solution.new truck_routes drone_routes).capacity_violation =
      (truck_routes.flatten.map (fun r => r.capacity_violation)).sum +
        (drone_routes.flatten.map (fun r => r.capacity_violation)).sum := by
  show Solution._calculate_capacity_violation truck_routes drone_routes = _
  unfold Solution._calculate_capacity_violation
  simp only [foldl_nested_add, zero_add]

/-- C12: the `drone_energy_violation` of the constructed Solution is the sum of
`energy_violation()` over all routes of all drones, and it is the same whatever the truck
routes are. -/
theorem energy_violation_is_total (truck_routes : List (List TruckRoute))
    (drone_routes : List (List DroneRoute)) :
    (Solution.new truck_routes drone_routes).drone_energy_violation =
        (drone_routes.flatten.map (fun r => r.energy_violation)).sum ∧
      ∀ other_truck_routes : List (List TruckRoute),
        (Solution.new other_truck_routes drone_routes).drone_energy_violation =
          (Solution.new truck_routes drone_routes).drone_energy_violation := by
  refine ⟨?_, fun _ => rfl⟩
  show Solution._calculate_energy_violation drone_routes = _
  unfold Solution._calculate_energy_violation
  simp only [foldl_nested_add, zero_add]

/-- C13: the `working_time` of every constructed Solution is non-negative, and when every
route has a non-negative `capacity_violation()` and every drone route a non-negative
`energy_violation()`, the `capacity_violation` and the `drone_energy_violation` of the
Solution are non-negative. -/
theorem aggregates_non_negative (truck_routes : List (List TruckRoute))
    (drone_routes : List (List DroneRoute)) :
    0 ≤ (Solution.new truck_routes drone_routes).working_time ∧
      ((∀ routes ∈ truck_routes, ∀ r ∈ routes, 0 ≤ r.capacity_violation) →
        (∀ routes ∈ drone_routes, ∀ r ∈ routes,
          0 ≤ r.capacity_violation ∧ 0 ≤ r.energy_violation) →
        0 ≤ (Solution.new truck_routes drone_routes).capacity_violation ∧
          0 ≤ (Solution.new truck_routes drone_routes).drone_energy_violation) := by
  constructor
  · show 0 ≤ Solution._calculate_working_time truck_routes drone_routes
    rw [calculate_working_time_eq]
    exact foldl_max_ge_init _ 0
  · intro ht hd
    constructor
    · show 0 ≤ Solution._calculate_capacity_violation truck_routes drone_routes
      unfold Solution._calculate_capacity_violation
      simp only [foldl_nested_add, zero_add]
      apply add_nonneg
      · apply sum_map_nonneg
        intro r hr
        obtain ⟨routes, h1, h2⟩ := List.mem_flatten.mp hr
        exact ht routes h1 r h2
      · apply sum_map_nonneg
        intro r hr
        obtain ⟨routes, h1, h2⟩ := List.mem_flatten.mp hr
        exact (hd routes h1 r h2).1
    · show 0 ≤ Solution._calculate_energy_violation drone_routes
      unfold Solution._calculate_energy_violation
      simp only [foldl_nested_add, zero_add]
      apply sum_map_nonneg
      intro r hr
      obtain ⟨routes, h1, h2⟩ := List.mem_flatten.mp hr
      exact (hd routes h1 r h2).2

/-- C13 at one truck with a route of capacity violation 2 and one drone with a route of
capacity violation 1 and energy violation 3. -/
theorem aggregates_non_negative_witness :
    0 ≤ (Solution.new [[⟨[0, 1, 0], 10, 2⟩]] [[⟨[0, 2, 0], 4, 1, 3⟩]]).capacity_violation ∧
      0 ≤ (Solution.new [[⟨[0, 1, 0], 10, 2⟩]] [[⟨[0, 2, 0], 4, 1, 3⟩]]).drone_energy_violation :=
  (aggregates_non_negative [[⟨[0, 1, 0], 10, 2⟩]] [[⟨[0, 2, 0], 4, 1, 3⟩]]).2
    (by simp) (by simp)

/-- C14: `cost()` of every Solution is its `working_time`, so two solutions with the same
`working_time` have the same cost, whatever their `capacity_violation` and
`drone_energy_violation` are. -/
theorem cost_is_working_time (s : Solution) :
    s.cost = s.working_time ∧
      ∀ t : Solution, t.working_time = s.working_time → t.cost = s.cost :=
  ⟨rfl, fun _ h => h⟩

/-- C15: in every iteration in which the neighborhood returns a neighbor, `current` becomes
that neighbor, whatever its cost; when its cost is not below the cost of `result`, the
best solution `result` is kept. -/
theorem accepts_any_neighbor {σ : Type} (move : Move σ) (st : TabuState σ)
    (neighbor : Solution)
    (h : (move st.env st.current (aspiration_criteria st.result)).1 = some neighbor) :
    (tabu_iteration move st).current = neighbor ∧
      (st.result.cost ≤ neighbor.cost → (tabu_iteration move st).result = st.result) := by
  rw [tabu_iteration_current, tabu_iteration_result, h]
  exact ⟨rfl, fun hle => if_neg (not_lt.mpr hle)⟩

/-- C15 at a neighbor of cost 5 returned while `current` and `result` cost 1: the neighbor
costs more than both and becomes `current`. -/
theorem accepts_any_neighbor_witness :
    ((example_solution 1).cost < (example_solution 5).cost) ∧
      (tabu_iteration (example_move (some (example_solution 5)))
          ⟨example_solution 1, example_solution 1, ()⟩).current = example_solution 5 ∧
      (tabu_iteration (example_move (some (example_solution 5)))
          ⟨example_solution 1, example_solution 1, ()⟩).result = example_solution 1 :=
  have hc : (example_solution 1).cost ≤ (example_solution 5).cost := by
    norm_num [example_solution, Solution.new, Solution.cost, Solution._calculate_working_time]
  ⟨by norm_num [example_solution, Solution.new, Solution.cost,
      Solution._calculate_working_time],
    (accepts_any_neighbor (example_move (some (example_solution 5)))
      ⟨example_solution 1, example_solution 1, ()⟩ (example_solution 5) rfl).1,
    (accepts_any_neighbor (example_move (some (example_solution 5)))
      ⟨example_solution 1, example_solution 1, ()⟩ (example_solution 5) rfl).2 hc⟩

/-- C16: in every iteration in which the neighborhood returns no neighbor, `current` and
`result` are left unchanged, and the loop goes on: the remaining iterations run from the
same `current` and `result`. -/
theorem null_neighbor_changes_nothing {σ : Type} (move : Move σ) (st : TabuState σ)
    (h : (move st.env st.current (aspiration_criteria st.result)).1 = none) :
    (tabu_iteration move st).current = st.current ∧
      (tabu_iteration move st).result = st.result ∧
      ∀ n, tabu_loop move (n + 1) st =
        tabu_loop move n
          ⟨st.current, st.result, (move st.env st.current (aspiration_criteria st.result)).2⟩ := by
  have hc : (tabu_iteration move st).current = st.current := by
    rw [tabu_iteration_current, h]
  have hr : (tabu_iteration move st).result = st.result := by
    rw [tabu_iteration_result, h]
  refine ⟨hc, hr, fun n => ?_⟩
  rw [tabu_loop_succ]
  congr 1
  unfold tabu_iteration
  rcases hm : move st.env st.current (aspiration_criteria st.result) with ⟨_ | nb, env⟩
  · rfl
  · rw [hm] at h
    cases h

/-- C16 at a move that returns no neighbor, from a solution of cost 1. -/
theorem null_neighbor_changes_nothing_witness :
    (tabu_iteration (example_move none) ⟨example_solution 1, example_solution 1, ()⟩).current =
        example_solution 1 ∧
      (tabu_iteration (example_move none) ⟨example_solution 1, example_solution 1, ()⟩).result =
        example_solution 1 ∧
      ∀ n, tabu_loop (example_move none) (n + 1)
          ⟨example_solution 1, example_solution 1, ()⟩ =
        tabu_loop (example_move none) n
          ⟨example_solution 1, example_solution 1,
            (example_move none () (example_solution 1)
              (aspiration_criteria (example_solution 1))).2⟩ :=
  null_neighbor_changes_nothing (example_move none)
    ⟨example_solution 1, example_solution 1, ()⟩ rfl

/-- C17: when the initial solution and every neighbor returned during the run visit every
non-depot customer index in [1, N-1] exactly once, so do `current` and `result` after every
iteration of the run, and so does the solution `tabu_search` returns. -/
theorem driver_preserves_visits {σ : Type} (problem : Problem)
    (initial_12_true initial_12_false initial_3 : Solution) (move : Move σ) (env : σ)
    (hinit : visits_each_once problem
      (Solution.initial initial_12_true initial_12_false initial_3))
    (hmove : ∀ neighbor ∈ (tabu_neighbors move problem.iterations
        ⟨Solution.initial initial_12_true initial_12_false initial_3,
          Solution.initial initial_12_true initial_12_false initial_3, env⟩).reduceOption,
      visits_each_once problem neighbor) :
    (∀ n, n ≤ problem.iterations →
        visits_each_once problem (tabu_loop move n
          ⟨Solution.initial initial_12_true initial_12_false initial_3,
            Solution.initial initial_12_true initial_12_false initial_3, env⟩).current ∧
        visits_each_once problem (tabu_loop move n
          ⟨Solution.initial initial_12_true initial_12_false initial_3,
            Solution.initial initial_12_true initial_12_false initial_3, env⟩).result) ∧
      visits_each_once problem
        (Solution.tabu_search problem initial_12_true initial_12_false initial_3 move env) := by
  have key : ∀ n, n ≤ problem.iterations →
      ∀ s ∈ Solution.initial initial_12_true initial_12_false initial_3 ::
        (tabu_neighbors move n
          ⟨Solution.initial initial_12_true initial_12_false initial_3,
            Solution.initial initial_12_true initial_12_false initial_3, env⟩).reduceOption,
      visits_each_once problem s := by
    intro n hn s hs
    rcases List.mem_cons.mp hs with h | h
    · rw [h]; exact hinit
    · exact hmove s (tabu_neighbors_mono move n problem.iterations hn _ s h)
  refine ⟨fun n hn => ⟨?_, ?_⟩, ?_⟩
  · exact key n hn _ (tabu_loop_current_mem move n _)
  · exact key n hn _ (tabu_loop_result_mem move n _)
  · exact key problem.iterations (le_refl _) _ (tabu_loop_result_mem move problem.iterations _)

/-- C17 on an instance with one customer and 3 iterations, from a seed that serves the
customer by truck, with a move that always returns a solution of the same routes. -/
theorem driver_preserves_visits_witness :
    visits_each_once example_instance
      (Solution.tabu_search example_instance
        (example_solution 1) (example_solution 1) (example_solution 1)
        (example_move (some (example_solution 5))) ()) :=
  (driver_preserves_visits example_instance
    (example_solution 1) (example_solution 1) (example_solution 1)
    (example_move (some (example_solution 5))) ()
    (by
      have h : Solution.initial (example_solution 1) (example_solution 1) (example_solution 1) =
          example_solution 1 := by simp [Solution.initial]
      rw [h]
      exact example_solution_visits example_instance rfl 1)
    (by
      intro neighbor hn
      rw [example_move_neighbors (example_solution 5) _ _ neighbor hn]
      exact example_solution_visits example_instance rfl 5)).2

/-- C18: once `Problem::get_instance` has succeeded and returned an instance, every later
call returns that same instance, whatever the input holds, executes no extraction from the
input, and leaves the instance installed; so does every call of any sequence of later
calls. -/
theorem get_instance_initialized_once (cin : Input) (problem : Problem)
    (h : (Problem.get_instance none cin).1 = Except.ok problem) :
    (∀ later : Input,
        Problem.get_instance (Problem.get_instance none cin).2 later =
          (Except.ok problem, some problem) ∧
        Problem.extractions (Problem.get_instance none cin).2 later = 0) ∧
      ∀ later : List Input,
        Problem.calls (Problem.get_instance none cin).2 later =
          (later.map (fun _ => Except.ok problem), some problem) := by
  obtain ⟨_, -, -, -, -, -, -, hinst⟩ := get_instance_ok cin problem h
  rw [hinst]
  exact ⟨fun later => ⟨rfl, rfl⟩, fun later => calls_installed problem later⟩

/-- C18 on an input with one customer and an endurance drone: the first call succeeds, and
later calls on any input return its instance and read nothing. -/
theorem get_instance_initialized_once_witness :
    ∃ problem,
      (Problem.get_instance none (example_input [3] [4] "DroneEnduranceConfig")).1 =
        Except.ok problem ∧
      ∀ later : Input,
        Problem.get_instance
            (Problem.get_instance none (example_input [3] [4] "DroneEnduranceConfig")).2 later =
          (Except.ok problem, some problem) ∧
        Problem.extractions
            (Problem.get_instance none (example_input [3] [4] "DroneEnduranceConfig")).2 later =
          0 := by
  obtain ⟨problem, hp⟩ := (get_instance_of_read_drone
    (example_input [3] [4] "DroneEnduranceConfig")).1 _ rfl
  exact ⟨problem, hp, (get_instance_initialized_once _ problem hp).1⟩

/-- C19: the claim fails: on an input whose speed type token is `medium` and whose range
type token is `far`, `Problem::get_instance` raises no error and builds a Problem. -/
theorem get_instance_accepts_unknown_stats :
    (example_input_stats._speed_type ≠ "low" ∧ example_input_stats._speed_type ≠ "high") ∧
      (example_input_stats._range_type ≠ "low" ∧ example_input_stats._range_type ≠ "high") ∧
      (∃ problem, (Problem.get_instance_bounded 1152921504606846975 none
        example_input_stats).1 = Except.ok problem) ∧
      ¬ ∃ e, (Problem.get_instance_bounded 1152921504606846975 none example_input_stats).1 =
        Except.error e := by
  obtain ⟨problem, hp⟩ := (get_instance_of_read_drone example_input_stats).1 _ rfl
  have hb : (Problem.get_instance_bounded 1152921504606846975 none example_input_stats).1 =
      Except.ok problem := by
    rw [get_instance_bounded_of_fits 1152921504606846975 none example_input_stats rfl]
    exact hp
  refine ⟨⟨by decide, by decide⟩, ⟨by decide, by decide⟩, ⟨problem, hb⟩, ?_⟩
  rintro ⟨e, he⟩
  rw [hb] at he
  cases he

/-- C19 (amended): `Problem::get_instance` does not validate the speed type and range type
tokens. Whenever it builds a Problem, the drone has the speed type `low` when the token is
`low` and `high` for every other token, and likewise for the range type; and the exception
it raises, if any, is the same whatever the two tokens are replaced by. -/
theorem stats_tokens_not_validated (max_size : Nat) (cin : Input) :
    (∀ problem, (Problem.get_instance_bounded max_size none cin).1 = Except.ok problem →
        problem.drone.speed_type =
          (if cin._speed_type = "low" then StatsType.low else StatsType.high) ∧
        problem.drone.range_type =
          (if cin._range_type = "low" then StatsType.low else StatsType.high) ∧
        (cin._speed_type ≠ "low" → problem.drone.speed_type = StatsType.high) ∧
        (cin._range_type ≠ "low" → problem.drone.range_type = StatsType.high)) ∧
      (∀ (speed_token range_token : String) (e : ProblemError),
        (Problem.get_instance_bounded max_size none
            { cin with _speed_type := speed_token, _range_type := range_token }).1 =
          Except.error e ↔
        (Problem.get_instance_bounded max_size none cin).1 = Except.error e) := by
  constructor
  · intro problem hp
    obtain ⟨-, hp1, -⟩ := get_instance_bounded_ok max_size cin problem hp
    obtain ⟨hs, hr⟩ := read_drone_types cin _ _ _ (get_instance_drone cin problem hp1)
    refine ⟨hs, hr, fun h => ?_, fun h => ?_⟩
    · rw [hs, if_neg h]
    · rw [hr, if_neg h]
  · intro speed_token range_token e
    exact get_instance_bounded_error_congr max_size
      { cin with _speed_type := speed_token, _range_type := range_token } cin rfl rfl rfl e

/-- The amended C19 on the input with the tokens `medium` and `far`, with `max_size()` at
2 ^ 60 - 1: the Problem is built and both types are read as `high`. -/
theorem stats_tokens_not_validated_witness :
    ∃ problem, (Problem.get_instance_bounded 1152921504606846975 none
        example_input_stats).1 = Except.ok problem ∧
      problem.drone.speed_type = StatsType.high ∧ problem.drone.range_type = StatsType.high := by
  obtain ⟨problem, hp⟩ := (get_instance_of_read_drone example_input_stats).1 _ rfl
  have hb : (Problem.get_instance_bounded 1152921504606846975 none example_input_stats).1 =
      Except.ok problem := by
    rw [get_instance_bounded_of_fits 1152921504606846975 none example_input_stats rfl]
    exact hp
  obtain ⟨-, -, hs, hr⟩ :=
    (stats_tokens_not_validated 1152921504606846975 example_input_stats).1 problem hb
  exact ⟨problem, hb, hs (by decide), hr (by decide)⟩

/-- C20: in exact arithmetic, for every value above 0 `utils::sqrt` returns a value r that
does not under-estimate the square root (r * r is at least the value, and r is at least the
real square root) and over-estimates it by less than the accuracy 1e-7, so r is not
negative; and for the value 0 it returns exactly 0. -/
theorem sqrt_never_underestimates (value : ℚ) (h : 0 < value) :
    (∃ r, utils.sqrt value = Except.ok r ∧ value ≤ r * r ∧ 0 ≤ r ∧
        Real.sqrt (value : ℝ) ≤ (r : ℝ) ∧
        (r : ℝ) - 1 / 10000000 < Real.sqrt (value : ℝ)) ∧
      utils.sqrt 0 = Except.ok 0 := by
  refine ⟨?_, rfl⟩
  have hmax : value ≤ max 1 value * max 1 value := by
    rcases le_total value 1 with h1 | h1
    · rw [max_eq_left h1]; linarith
    · rw [max_eq_right h1]; nlinarith
  obtain ⟨h1, h2, l, h3, h4, h5⟩ := sqrt_loop_bounds value 0 (max 1 value) (le_refl 0)
    (by rw [zero_mul]; exact h) hmax (lt_of_lt_of_le zero_lt_one (le_max_left _ _))
  refine ⟨utils.sqrt_loop value 0 (max 1 value), ?_, h1, le_of_lt h2, ?_, ?_⟩
  · unfold utils.sqrt
    rw [if_neg (not_lt.mpr (le_of_lt h)), if_neg (ne_of_gt h)]
    rfl
  · generalize utils.sqrt_loop value 0 (max 1 value) = r at h1 h2
    have h1r : (value : ℝ) ≤ (r : ℝ) * (r : ℝ) := by exact_mod_cast h1
    have h2r : (0 : ℝ) < (r : ℝ) := by exact_mod_cast h2
    rw [Real.sqrt_le_left (le_of_lt h2r), pow_two]
    exact h1r
  · generalize utils.sqrt_loop value 0 (max 1 value) = r at h5
    have h3r : (0 : ℝ) ≤ (l : ℝ) := by exact_mod_cast h3
    have h4r : (l : ℝ) * (l : ℝ) < (value : ℝ) := by exact_mod_cast h4
    have h5r : (r : ℝ) - (l : ℝ) ≤ ((utils.accuracy : ℚ) : ℝ) := by exact_mod_cast h5
    have hacc : ((utils.accuracy : ℚ) : ℝ) = 1 / 10000000 := by norm_num [utils.accuracy]
    rw [hacc] at h5r
    have : (l : ℝ) < Real.sqrt (value : ℝ) := by
      rw [Real.lt_sqrt h3r, pow_two]
      exact h4r
    linarith

/-- C20 at the value 25. -/
theorem sqrt_never_underestimates_witness :
    (∃ r, utils.sqrt 25 = Except.ok r ∧ (25 : ℚ) ≤ r * r ∧ 0 ≤ r ∧
        Real.sqrt ((25 : ℚ) : ℝ) ≤ (r : ℝ) ∧
        (r : ℝ) - 1 / 10000000 < Real.sqrt ((25 : ℚ) : ℝ)) ∧
      utils.sqrt 0 = Except.ok 0 :=
  sqrt_never_underestimates 25 (by norm_num)

/-- C21: `utils::sqrt` raises `out_of_range` exactly when its argument is negative;
`utils::distance` returns a value for all `dx`, `dy`; the two nested loops build the
distance matrix for every list of customers; and the only exception `Problem::get_instance`
raises is the one for an unknown drone energy model, never a square-root domain error. -/
theorem sqrt_fails_iff_negative :
    (∀ value : ℚ, (∃ e, utils.sqrt value = Except.error e) ↔ value < 0) ∧
      (∀ value : ℚ, value < 0 →
        utils.sqrt value = Except.error (ProblemError.out_of_range value)) ∧
      (∀ dx dy : ℚ, ∃ d, utils.distance dx dy = Except.ok d) ∧
      (∀ customers : List Customer,
        ∃ distances, Problem.calculate_distances customers = Except.ok distances) ∧
      (∀ (cin : Input) (e : ProblemError),
        (Problem.get_instance none cin).1 = Except.error e →
        e = ProblemError.unknown_drone_energy_model cin.drone_class) := by
  refine ⟨fun value => ⟨?_, ?_⟩, ?_, ?_, ?_, ?_⟩
  · rintro ⟨e, he⟩
    by_contra hneg
    unfold utils.sqrt at he
    rw [if_neg hneg] at he
    split_ifs at he <;> cases he
  · intro hneg
    refine ⟨ProblemError.out_of_range value, ?_⟩
    unfold utils.sqrt
    rw [if_pos hneg]
    rfl
  · intro value hneg
    unfold utils.sqrt
    rw [if_pos hneg]
    rfl
  · intro dx dy
    exact ⟨distance_value dx dy, distance_eq_ok dx dy⟩
  · intro customers
    obtain ⟨distances, hd, -, -⟩ := calculate_distances_spec customers
    exact ⟨distances, hd⟩
  · intro cin e he
    have hr := (get_instance_error cin e he).1
    rcases read_drone_cases cin
      (if cin._speed_type = "low" then StatsType.low else StatsType.high)
      (if cin._range_type = "low" then StatsType.low else StatsType.high)
      with ⟨_, c, h⟩ | ⟨_, c, h⟩ | ⟨_, c, h⟩ | ⟨_, _, _, h⟩
    · rw [h] at hr; cases hr
    · rw [h] at hr; cases hr
    · rw [h] at hr; cases hr
    · rw [h] at hr
      cases hr
      rfl

/-- C22: in exact arithmetic, for every value that is not negative `utils::sqrt` returns.
Its loop starts from `low = 0` and `high = max(1, value)`; after k turns the width
`high - low` is `max(1, value) / 2 ^ k`; and there is a number n of turns such that the
loop condition holds before each of the first n turns, the width is at most the accuracy
1e-7 after them, and the value the loop returns is `high` after these n turns. -/
theorem sqrt_bisection_terminates (value : ℚ) (h : 0 ≤ value) :
    (∀ k : Nat,
        ((sqrt_step value)^[k] (0, max 1 value)).2 - ((sqrt_step value)^[k] (0, max 1 value)).1 =
          max 1 value / 2 ^ k) ∧
      (∃ n : Nat,
        (∀ k, k < n → utils.accuracy <
          ((sqrt_step value)^[k] (0, max 1 value)).2 -
            ((sqrt_step value)^[k] (0, max 1 value)).1) ∧
        ((sqrt_step value)^[n] (0, max 1 value)).2 - ((sqrt_step value)^[n] (0, max 1 value)).1 ≤
          utils.accuracy ∧
        utils.sqrt_loop value 0 (max 1 value) = ((sqrt_step value)^[n] (0, max 1 value)).2) ∧
      ∃ r, utils.sqrt value = Except.ok r := by
  have hw : ∀ k : Nat,
      ((sqrt_step value)^[k] (0, max 1 value)).2 - ((sqrt_step value)^[k] (0, max 1 value)).1 =
        max 1 value / 2 ^ k := by
    intro k
    rw [sqrt_iterate_width]
    simp only [sub_zero]
  refine ⟨hw, ?_, ?_⟩
  · have hex := exists_width_le (max 1 value)
    have hmin : ∀ k, k < Nat.find hex → utils.accuracy <
        ((sqrt_step value)^[k] (0, max 1 value)).2 -
          ((sqrt_step value)^[k] (0, max 1 value)).1 := by
      intro k hk
      rw [hw k]
      exact not_le.mp (Nat.find_min hex hk)
    have hlast : ((sqrt_step value)^[Nat.find hex] (0, max 1 value)).2 -
        ((sqrt_step value)^[Nat.find hex] (0, max 1 value)).1 ≤ utils.accuracy := by
      rw [hw]
      exact Nat.find_spec hex
    refine ⟨Nat.find hex, hmin, hlast, ?_⟩
    have ht := sqrt_loop_turns value (Nat.find hex) (0, max 1 value) hmin
    rw [ht]
    exact sqrt_loop_exit value _ (not_lt.mpr hlast)
  · unfold utils.sqrt
    rw [if_neg (not_lt.mpr h)]
    split_ifs
    · exact ⟨0, rfl⟩
    · exact ⟨_, rfl⟩

/-- C22 at the value 25. -/
theorem sqrt_bisection_terminates_witness :
    ∃ n : Nat,
      (∀ k, k < n → utils.accuracy <
        ((sqrt_step 25)^[k] (0, max 1 25)).2 - ((sqrt_step 25)^[k] (0, max 1 25)).1) ∧
      ((sqrt_step 25)^[n] (0, max 1 25)).2 - ((sqrt_step 25)^[n] (0, max 1 25)).1 ≤
        utils.accuracy ∧
      utils.sqrt_loop 25 0 (max 1 25) = ((sqrt_step 25)^[n] (0, max 1 25)).2 :=
  (sqrt_bisection_terminates 25 (by norm_num)).2.1

end d2d
